import Mathlib

/-!
# Verification of the NetSurf box-tree construction subsystem

A shallow embedding of the box-construction code (`xml_to_box`,
`box_construct_element`, `box_construct_text`, the special-element handlers,
`plugin_decode`, `box_frameset` and `box_parse_multi_lengths`) together with
proofs about the properties stated in the specification.

Conventions of the embedding:
* C pointers/ownership are replaced by purely functional values; the mutable
  `parent` box together with the threaded `*inline_container` slot is
  represented by a `Ctx` value holding the parent's closed children and the
  children of the currently open anonymous inline container.
* Memory exhaustion paths are not modelled: every allocation succeeds, so the
  `memory_error` field of `box_result` is always `false`.
* External collaborators (URL joining, content-type lookup, localized
  messages) are parameters of the `Content` record or identity functions.
* Machine integers (`strtol` results, span counts) are modelled as unbounded
  `Int`; numeric length values parsed by `strtof` are modelled as exact `Rat`.
-/

namespace NetSurf

/-! ## Basic enumerations (from css_enums / box.h usage in the source) -/

/-- Box kinds, from the `box_type` enum as used by the construction code. -/
inductive BoxKind where
  | block
  | inlineBox
  | inlineContainer
  | inlineBlock
  | table
  | tableRowGroup
  | tableRow
  | tableCell
  | floatLeft
  | floatRight
  | br
  deriving DecidableEq, Repr

/-- CSS `display` values (CSS_DISPLAY_*), after cascading; `inherit` is
resolved by the external cascade and never reaches the builder. -/
inductive Display where
  | inlineDisp
  | block
  | listItem
  | runIn
  | inlineBlock
  | table
  | inlineTable
  | tableRowGroup
  | tableHeaderGroup
  | tableFooterGroup
  | tableRow
  | tableColumnGroup
  | tableColumn
  | tableCell
  | tableCaption
  | noneDisp
  deriving DecidableEq, Repr

/-- CSS `float` values (CSS_FLOAT_*). -/
inductive CssFloat where
  | noneF
  | left
  | right
  deriving DecidableEq, Repr

/-- CSS `white-space` values (CSS_WHITE_SPACE_*). -/
inductive WhiteSpace where
  | normal
  | nowrap
  | pre
  | preLine
  | preWrap
  deriving DecidableEq, Repr

/-- CSS `text-transform` values (CSS_TEXT_TRANSFORM_*). -/
inductive TextTransform where
  | noneT
  | uppercase
  | lowercase
  | capitalize
  deriving DecidableEq, Repr

/-- Form control kinds (GADGET_*). -/
inductive GadgetKind where
  | hidden
  | textbox
  | radio
  | checkbox
  | select
  | textarea
  | image
  | password
  | submit
  | reset
  | file
  deriving DecidableEq, Repr

/-- Form submission methods (form_method). -/
inductive FormMethod where
  | get
  | postUrlenc
  | postMultipart
  deriving DecidableEq, Repr

/-- Multi-length entry kinds (LENGTH_PX / LENGTH_PERCENT / LENGTH_RELATIVE). -/
inductive LengthType where
  | px
  | percent
  | relative
  deriving DecidableEq, Repr

/-- Table column descriptor kinds (COLUMN_WIDTH_*). -/
inductive ColType where
  | fixed
  | percent
  | relative
  deriving DecidableEq, Repr

/-! ## Character and string helpers (C library semantics) -/

/-- C `isspace` for the default locale. -/
def isSpaceC (c : Char) : Bool :=
  c = ' ' || c = '\t' || c = '\n' || c = '\r' || c = '\x0b' || c = '\x0c'

/-- C `tolower` restricted to ASCII. -/
def asciiLower (c : Char) : Char :=
  if 'A' ≤ c ∧ c ≤ 'Z' then Char.ofNat (c.toNat + 32) else c

/-- C `toupper` restricted to ASCII. -/
def asciiUpper (c : Char) : Char :=
  if 'a' ≤ c ∧ c ≤ 'z' then Char.ofNat (c.toNat - 32) else c

/-- Case-insensitive string equality, i.e. `strcasecmp(a, b) == 0`. -/
def eqIgnoreCase (a b : String) : Bool :=
  a.data.map asciiLower = b.data.map asciiLower

/-- Digit test for base 10. -/
def isDigitC (c : Char) : Bool := '0' ≤ c ∧ c ≤ '9'

/-- Numeric value of a run of decimal digits. -/
def digitsVal (l : List Char) : Nat :=
  l.foldl (fun acc c => acc * 10 + (c.toNat - '0'.toNat)) 0

/-- C `strtol(s, NULL, 10)` on the given characters: skip leading space,
optional sign, then a run of decimal digits (0 if there are none). -/
def strtol (s : String) : Int :=
  let l := s.data.dropWhile isSpaceC
  let (neg, l) := match l with
    | '-' :: rest => (true, rest)
    | '+' :: rest => (false, rest)
    | rest => (false, rest)
  let v : Int := Int.ofNat (digitsVal (l.takeWhile isDigitC))
  if neg then -v else v

/-- C `atoi` (equivalent to `strtol` base 10). -/
def atoiC (s : String) : Int := strtol s

/-- Fractional value of digits after a decimal point. -/
def fracVal (l : List Char) : Rat :=
  (l.foldr (fun c acc => (acc + (c.toNat - '0'.toNat : Rat)) / 10) 0)

/-- C `strtof`: parse an optional sign, integer digits, and an optional
fraction; returns the parsed value and the rest of the string (the `end`
pointer).  If no digits are consumed the value is `0` and nothing is
consumed, matching `strtof` returning `0` with `end == s`.  Exponents and
hex floats are not used by the source's inputs and are not modelled. -/
def strtofC (l : List Char) : Rat × List Char :=
  let (neg, l1) := match l with
    | '-' :: rest => (true, rest)
    | '+' :: rest => (false, rest)
    | rest => (false, rest)
  let ds := l1.takeWhile isDigitC
  let l2 := l1.dropWhile isDigitC
  let (fs, l3) := match l2 with
    | '.' :: rest => (rest.takeWhile isDigitC, rest.dropWhile isDigitC)
    | rest => ([], rest)
  if ds.isEmpty ∧ fs.isEmpty then (0, l)
  else
    let v : Rat :=
      if fs.isEmpty then (digitsVal ds : Rat) else (digitsVal ds : Rat) + fracVal fs
    (if neg then -v else v, l3)

/-- Whitespace squashing.
Modelled from the spec: `squash_whitespace` (in the repository's utils, not
in the provided sources) collapses every run of whitespace characters into a
single space character. -/
def squashWS (l : List Char) : List Char :=
  match l with
  | [] => []
  | c :: rest =>
    if isSpaceC c then ' ' :: squashWS (rest.dropWhile isSpaceC)
    else c :: squashWS rest
termination_by l.length
decreasing_by
  · simp only [List.length_cons]
    exact Nat.lt_succ_of_le (List.dropWhile_sublist isSpaceC).length_le
  · simp

/-- `squash_whitespace` on `String`s. -/
def squash_whitespace (s : String) : String := ⟨squashWS s.data⟩

/-- Space-to-NBSP conversion on characters.
Modelled from the spec: `cnv_space2nbsp` (repository utils, not in the
provided sources) replaces each space or tab with a non-breaking-space code
point. -/
def cnv2nbspL (l : List Char) : List Char :=
  l.map (fun c => if c = ' ' ∨ c = '\t' then '\u00A0' else c)

/-- `cnv_space2nbsp` on `String`s. -/
def cnv_space2nbsp (s : String) : String := ⟨cnv2nbspL s.data⟩

/-- Leading/trailing whitespace strip.
Modelled from the spec: `strip` (repository utils, not in the provided
sources) removes leading and trailing whitespace from a string. -/
def stripC (s : String) : String :=
  ⟨(s.data.dropWhile isSpaceC).reverse.dropWhile isSpaceC |>.reverse⟩

/-- `box_text_transform` from the source: apply the CSS text-transform to
the ASCII characters of the first `len` characters of `s` (the tail beyond
`len` is left unchanged). -/
def box_text_transform (s : List Char) (len : Nat) (tt : TextTransform) : List Char :=
  match tt with
  | .noneT => s
  | .uppercase => (s.take len).map (fun c => if c.toNat < 0x80 then asciiUpper c else c) ++ s.drop len
  | .lowercase => (s.take len).map (fun c => if c.toNat < 0x80 then asciiLower c else c) ++ s.drop len
  | .capitalize =>
    let f : Option Char → Char → Char := fun prev c =>
      match prev with
      | none => if c.toNat < 0x80 then asciiUpper c else c
      | some p => if c.toNat < 0x80 ∧ isSpaceC p then asciiUpper c else c
    let rec go : Option Char → List Char → List Char
      | _, [] => []
      | prev, c :: rest => f prev c :: go (some c) rest
    go none (s.take len) ++ s.drop len

/-! ## Data model -/

/-- Resolved style for a node: the output of `box_get_style` (stylesheet
cascade plus presentational attributes), which the builder only consumes
through the fields below.  Style resolution itself is external. -/
structure Style where
  display : Display
  float : CssFloat
  whiteSpace : WhiteSpace
  textTransform : TextTransform
  /-- `background_image`: `some uri` iff the resolved style carries
  `CSS_BACKGROUND_IMAGE_URI` with that (already absolute) URI. -/
  backgroundImage : Option String
  backgroundColor : Int
  deriving DecidableEq, Repr

/-- A `<select>` option (struct form_option). -/
structure FormOption where
  value : String
  text : String
  selected : Bool
  initialSelected : Bool
  deriving DecidableEq, Repr

/-- A form control (struct form_control). -/
structure Gadget where
  kind : GadgetKind
  name : Option String := none
  value : Option String := none
  initialValue : Option String := none
  length : Nat := 0
  selected : Bool := false
  maxlength : Int := 0
  multiple : Bool := false
  items : List FormOption := []
  numSelected : Nat := 0
  current : Option FormOption := none
  /-- Identifier of the owning form, `none` when formless
  (`gadget->form = 0`). -/
  form : Option Nat := none
  deriving DecidableEq, Repr

/-- An object/embed parameter (struct plugin_params).  The list is built by
prepending, so it is in reverse document order. -/
structure PluginParam where
  name : Option String := none
  value : Option String := none
  type : Option String := none
  valuetype : Option String := none
  deriving DecidableEq, Repr

/-- Object resolution parameters (struct object_params). -/
structure ObjectParams where
  data : Option String := none
  type : Option String := none
  codetype : Option String := none
  codebase : Option String := none
  classid : Option String := none
  basehref : Option String := none
  params : List PluginParam := []
  deriving DecidableEq, Repr

/-- A frameset table column descriptor (struct column as filled in by
`box_frameset`). -/
structure ColDesc where
  type : ColType
  width : Rat
  deriving DecidableEq, Repr

/-- A multi-length entry (struct box_multi_length). -/
structure MultiLength where
  value : Rat
  type : LengthType
  deriving DecidableEq, Repr

/-- The input tree: an element node carries its name, attributes, its
resolved style (the external resolver's output for it) and children; text
nodes carry their content; `other` stands for comments etc. -/
inductive Node where
  | element (name : String) (attrs : List (String × String)) (style : Style)
      (children : List Node)
  | text (content : String)
  | other

/-- `xmlGetProp`: the value of the first attribute with the given name. -/
def getProp (attrs : List (String × String)) (name : String) : Option String :=
  (attrs.find? (fun a => a.1 = name)).map (·.2)

/-- `xmlHasProp`. -/
def hasProp (attrs : List (String × String)) (name : String) : Bool :=
  (getProp attrs name).isSome

/-- Node name as seen by `strcmp(n->name, ...)`: libxml reports `"text"`
for text nodes. -/
def Node.name : Node → String
  | .element name _ _ _ => name
  | .text _ => "text"
  | .other => ""

def Node.isElement : Node → Bool
  | .element _ _ _ _ => true
  | _ => false

mutual

/-- `xmlNodeGetContent`: concatenation of all text content below a node. -/
def nodeContent : Node → String
  | .element _ _ _ children => nodeContentList children
  | .text s => s
  | .other => ""

/-- `xmlNodeGetContent` over a child list. -/
def nodeContentList : List Node → String
  | [] => ""
  | n :: rest => nodeContent n ++ nodeContentList rest

end

/-- A box-tree node (struct box).  `children` is the ordered child list;
the `parent`/`prev`/`next` back-pointers of the C struct are implicit in
the tree shape.  `length` is the C `box->length` field, kept separately
from `text` because the code decrements it without shortening the text. -/
inductive Box where
  | mk (kind : BoxKind) (children : List Box) (style : Option Style)
      (styleClone : Bool) (text : Option String) (length : Nat) (space : Bool)
      (columns : Int) (rows : Int) (href : Option String) (title : Option String)
      (id : Option String) (usemap : Option String) (gadget : Option Gadget)
      (objectParams : Option ObjectParams) (col : List ColDesc)
  deriving Repr

def Box.kind : Box → BoxKind
  | .mk k _ _ _ _ _ _ _ _ _ _ _ _ _ _ _ => k

def Box.children : Box → List Box
  | .mk _ c _ _ _ _ _ _ _ _ _ _ _ _ _ _ => c

def Box.style : Box → Option Style
  | .mk _ _ s _ _ _ _ _ _ _ _ _ _ _ _ _ => s

def Box.text : Box → Option String
  | .mk _ _ _ _ t _ _ _ _ _ _ _ _ _ _ _ => t

def Box.length : Box → Nat
  | .mk _ _ _ _ _ l _ _ _ _ _ _ _ _ _ _ => l

def Box.space : Box → Bool
  | .mk _ _ _ _ _ _ sp _ _ _ _ _ _ _ _ _ => sp

def Box.columns : Box → Int
  | .mk _ _ _ _ _ _ _ c _ _ _ _ _ _ _ _ => c

def Box.rows : Box → Int
  | .mk _ _ _ _ _ _ _ _ r _ _ _ _ _ _ _ => r

def Box.href : Box → Option String
  | .mk _ _ _ _ _ _ _ _ _ h _ _ _ _ _ _ => h

def Box.gadget : Box → Option Gadget
  | .mk _ _ _ _ _ _ _ _ _ _ _ _ _ g _ _ => g

def Box.objectParams : Box → Option ObjectParams
  | .mk _ _ _ _ _ _ _ _ _ _ _ _ _ _ po _ => po

/-- `box_create(style, href, title, id, pool)`.
Modelled from the spec: `box_create` (render/box.c, not among the provided
sources) returns a fresh box of default type `BOX_INLINE` with no children,
no text, span counts 1, and the given style, href, title and id. -/
def box_create (style : Option Style) (href title id : Option String) : Box :=
  .mk .inlineBox [] style false none 0 false 1 1 href title id none none none []

/-- Replace a box's kind, keeping every other field. -/
def Box.setKind : Box → BoxKind → Box
  | .mk _ c s sc t l sp co ro h ti i u g po cd, k =>
    .mk k c s sc t l sp co ro h ti i u g po cd

/-- Replace a box's child list. -/
def Box.setChildren : Box → List Box → Box
  | .mk k _ s sc t l sp co ro h ti i u g po cd, c =>
    .mk k c s sc t l sp co ro h ti i u g po cd

/-- Set a box's trailing-space flag (`box->space = 1`). -/
def Box.setSpace : Box → Box
  | .mk k c s sc t l _ co ro h ti i u g po cd =>
    .mk k c s sc t l true co ro h ti i u g po cd

/-- Set the span counts (`box->columns` / `box->rows`). -/
def Box.setSpans : Box → Int → Int → Box
  | .mk k c s sc t l sp _ _ h ti i u g po cd, co, ro =>
    .mk k c s sc t l sp co ro h ti i u g po cd

/-- Set the style-clone flag (`box->style_clone = 1`). -/
def Box.setStyleClone : Box → Box
  | .mk k c s _ t l sp co ro h ti i u g po cd =>
    .mk k c s true t l sp co ro h ti i u g po cd

/-- Set the gadget. -/
def Box.setGadget : Box → Option Gadget → Box
  | .mk k c s sc t l sp co ro h ti i u _ po cd, g =>
    .mk k c s sc t l sp co ro h ti i u g po cd

/-- Set the text together with its length (`box->text` / `box->length`). -/
def Box.setTextLen : Box → Option String → Nat → Box
  | .mk k c s sc _ _ sp co ro h ti i u g po cd, t, l =>
    .mk k c s sc t l sp co ro h ti i u g po cd

/-- Set the usemap string. -/
def Box.setUsemap : Box → Option String → Box
  | .mk k c s sc t l sp co ro h ti i _ g po cd, u =>
    .mk k c s sc t l sp co ro h ti i u g po cd

/-- Set the object params. -/
def Box.setObjectParams : Box → Option ObjectParams → Box
  | .mk k c s sc t l sp co ro h ti i u g _ cd, po =>
    .mk k c s sc t l sp co ro h ti i u g po cd

/-- Set the table column descriptors (`box->col`). -/
def Box.setCol : Box → List ColDesc → Box
  | .mk k c s sc t l sp co ro h ti i u g po _, cd =>
    .mk k c s sc t l sp co ro h ti i u g po cd

/-- An anonymous inline container holding the given children
(`box_create` followed by `type = BOX_INLINE_CONTAINER`). -/
def mkIC (children : List Box) : Box :=
  .mk .inlineContainer children none false none 0 false 1 1 none none none none
    none none []

/-! ## Construction context, status and state -/

/-- A fetch request issued through `html_fetch_object` (external fetcher);
we record the URL and whether it was a background fetch. -/
structure Fetch where
  url : String
  background : Bool
  deriving DecidableEq, Repr

/-- The enclosing document (`struct content`), restricted to the fields the
builder reads.  `urlJoin` is the external `url_join` (returning `none` both
for `URL_FUNC_FAILED` and, unmodelled, `URL_FUNC_NOMEM`); `contentKnown s`
is `content_lookup(s) != CONTENT_OTHER`. -/
structure Content where
  baseUrl : String
  urlJoin : String → String → Option String
  contentKnown : String → Bool

/-- A form opened by `box_form` (`form_new`). -/
structure Form where
  id : Nat
  action : String
  method : FormMethod
  deriving DecidableEq, Repr

/-- `struct box_status`: values threaded down the recursion.  The `content`
pointer is passed separately as `Content`. -/
structure Status where
  href : Option String := none
  title : Option String := none
  id : Option String := none
  currentForm : Option Nat := none
  deriving DecidableEq, Repr

/-- Global observable effects of construction: fetch requests issued, forms
opened, and controls registered with forms (`form_add_control`). -/
structure BState where
  fetches : List Fetch := []
  forms : List Form := []
  nextForm : Nat := 0
  registered : List (Nat × Gadget) := []
  backgroundColour : Option Int := none
  deriving Repr

/-- `form_add_control(form, control)`.
Modelled from the spec: registers the control with the open form context
(the control records its owning form, the form gains the control). -/
def form_add_control (s : BState) (f : Nat) (g : Gadget) : Gadget × BState :=
  ({ g with form := some f }, { s with registered := s.registered ++ [(f, { g with form := some f })] })

/-- `messages_get`: external localisation; modelled as the identity on the
message key. -/
def messages_get (key : String) : String := key

/-- The result of a special-element handler (`struct box_result`).  With
allocation always succeeding, `memError` is `false` on every reachable
path. -/
structure BoxRes where
  box : Option Box
  convertChildren : Bool
  memError : Bool
  deriving Repr

/-- The state of a parent box being filled: `done` are its closed children
in order; `ic = some cs` means an anonymous inline container holding `cs`
is currently open as the parent's last child (the `*inline_container`
slot points at it); `ic = none` means the slot is empty. -/
structure Ctx where
  done : List Box := []
  ic : Option (List Box) := none

/-- Closing the open inline container (the C code resets the
`*inline_container` slot to 0; the container itself stays attached). -/
def Ctx.flush (ctx : Ctx) : Ctx :=
  match ctx.ic with
  | none => ctx
  | some cs => { done := ctx.done ++ [mkIC cs], ic := none }

/-- Append a box to the open inline container, creating and attaching the
container first if the slot is empty (the "first inline node" path). -/
def Ctx.addInline (ctx : Ctx) (b : Box) : Ctx :=
  match ctx.ic with
  | none => { ctx with ic := some [b] }
  | some cs => { ctx with ic := some (cs ++ [b]) }

/-- Append a closed (non-inline) box after flushing the open container;
corresponds to `box_add_child(parent, box)` followed by the
`*inline_container = 0` reset. -/
def Ctx.addBlock (ctx : Ctx) (b : Box) : Ctx :=
  let c := ctx.flush
  { done := c.done ++ [b], ic := none }

/-- The parent's final child list (an open container remains attached). -/
def Ctx.finalize (ctx : Ctx) : List Box :=
  match ctx.ic with
  | none => ctx.done
  | some cs => ctx.done ++ [mkIC cs]

/-! ## `box_parse_multi_lengths` -/

/-- One iteration of the parsing loop in `box_parse_multi_lengths`: skip
spaces, `strtof`, replace non-positive values by 1, classify by the
character at the `end` pointer, then skip to just after the next comma. -/
def parse_multi_step (l : List Char) : MultiLength × List Char :=
  let l1 := l.dropWhile isSpaceC
  let (v, rest) := strtofC l1
  let value := if v ≤ 0 then 1 else v
  let ty : LengthType := match rest with
    | '%' :: _ => .percent
    | '*' :: _ => .relative
    | _ => .px
  let rest2 := rest.dropWhile (fun c => c ≠ ',')
  let rest3 := match rest2 with
    | ',' :: r => r
    | r => r
  (⟨value, ty⟩, rest3)

/-- The parsing loop, running exactly `n` times. -/
def parse_multi_go : Nat → List Char → List MultiLength
  | 0, _ => []
  | n + 1, l => (parse_multi_step l).1 :: parse_multi_go n (parse_multi_step l).2

/-- `box_parse_multi_lengths`: the entry count is one more than the number
of commas; the returned `*count` equals the list length. -/
def box_parse_multi_lengths (s : String) : List MultiLength :=
  parse_multi_go (s.data.count ',' + 1) s.data

/-! ## `plugin_decode` and the object-family handlers -/

/-- The Flash CLSID recognised by `plugin_decode`. -/
def flashClsid : String := "clsid:D27CDB6E-AE6D-11cf-96B8-444553540000"

/-- The tail of `plugin_decode` once the target `url` has been computed:
reject unknown declared `type`/`codetype`, reject self-inclusion
(`strcasecmp(url, base_url) == 0`), otherwise request the object fetch. -/
def plugin_decode_check (c : Content) (po : ObjectParams) (url : String)
    (s : BState) : Bool × BState :=
  if ¬ (po.type.all c.contentKnown) then (false, s)
  else if ¬ (po.codetype.all c.contentKnown) then (false, s)
  else if eqIgnoreCase url c.baseUrl then (false, s)
  else (true, { s with fetches := s.fetches ++ [⟨url, false⟩] })

/-- `plugin_decode`: validate the assembled object params and, when they
name a fetchable target, start the fetch.  Returns the C return value, the
(mutated) params, and the updated state. -/
def plugin_decode (c : Content) (po : ObjectParams) (s : BState) :
    Bool × ObjectParams × BState :=
  match c.urlJoin (po.codebase.getD "./") c.baseUrl with
  | none => (false, po, s)
  | some codebase =>
    let po := { po with codebase := some codebase, basehref := some c.baseUrl }
    match po.data, po.classid with
    | none, none => (false, po, s)
    | none, some cid =>
      if eqIgnoreCase (cid.take 6) "clsid:" then
        if eqIgnoreCase cid flashClsid then
          match po.params.find? (fun pp => eqIgnoreCase (pp.name.getD "") "movie") with
          | none => (false, po, s)
          | some pp =>
            match c.urlJoin (pp.value.getD "") (po.basehref.getD "") with
            | none => (false, po, s)
            | some url =>
              match c.urlJoin "./" c.baseUrl with
              | none => (false, po, s)
              | some cb2 =>
                let po := { po with codebase := some cb2 }
                let (ok, s) := plugin_decode_check c po url s
                (ok, po, s)
        else (false, po, s)
      else
        match c.urlJoin cid codebase with
        | none => (false, po, s)
        | some url =>
          let (ok, s) := plugin_decode_check c po url s
          (ok, po, s)
    | some d, _ =>
      match c.urlJoin d codebase with
      | none => (false, po, s)
      | some url =>
        let (ok, s) := plugin_decode_check c po url s
        (ok, po, s)

/-- Build one `<param>`'s plugin parameter (`valuetype` defaults to
`"data"`). -/
def param_of (attrs : List (String × String)) : PluginParam :=
  { name := getProp attrs "name", value := getProp attrs "value",
    type := getProp attrs "type",
    valuetype := some ((getProp attrs "valuetype").getD "data") }

/-- The `<param>` harvesting loop of `box_object`/`box_applet`: element
children named `param` are prepended to the accumulator; the first
non-`param` element child stops the loop (start of alt content);
non-element children are skipped. -/
def object_params_scan (acc : List PluginParam) : List Node → List PluginParam
  | [] => acc
  | .element nm a _ _ :: rest =>
    if nm = "param" then object_params_scan (param_of a :: acc) rest else acc
  | _ :: rest => object_params_scan acc rest

/-- `box_object`: harvest attributes and `<param>` children, then decide
via `plugin_decode`; on success the children are not converted, on failure
they are (fallback content). -/
def box_object (c : Content) (attrs : List (String × String))
    (children : List Node) (st : Status) (style : Style) (s : BState) :
    BoxRes × Status × BState :=
  let box := box_create (some style) st.href none st.id
  let po : ObjectParams :=
    { data := getProp attrs "data", type := getProp attrs "type",
      codetype := getProp attrs "codetype", codebase := getProp attrs "codebase",
      classid := getProp attrs "classid" }
  let box := match getProp attrs "usemap" with
    | some m => box.setUsemap (some (if m.take 1 = "#" then m.drop 1 else m))
    | none => box
  let po := { po with params := object_params_scan [] children }
  let pd := plugin_decode c po s
  let box := box.setObjectParams (some pd.2.1)
  if pd.1 then (⟨some box, false, false⟩, st, pd.2.2)
  else (⟨some box, true, false⟩, st, pd.2.2)

/-- `box_embed`: `src` becomes `data`; every other attribute becomes a
synthesized parameter with `valuetype="data"` (prepended, so in reverse
attribute order); the `plugin_decode` result is ignored and children are
never converted. -/
def box_embed (c : Content) (attrs : List (String × String)) (st : Status)
    (style : Style) (s : BState) : BoxRes × Status × BState :=
  let box := box_create (some style) st.href none st.id
  let po : ObjectParams := { data := getProp attrs "src" }
  let ps := attrs.foldl
    (fun acc kv =>
      if eqIgnoreCase kv.1 "src" then acc
      else ({ name := some kv.1, value := some kv.2,
              valuetype := some "data" } : PluginParam) :: acc) []
  let po := { po with params := ps }
  let pd := plugin_decode c po s
  (⟨some (box.setObjectParams (some pd.2.1)), false, false⟩, st, pd.2.2)

/-- `box_iframe`: `src` becomes `data`; the `plugin_decode` result is
ignored; children never converted. -/
def box_iframe (c : Content) (attrs : List (String × String)) (st : Status)
    (style : Style) (s : BState) : BoxRes × Status × BState :=
  let box := box_create (some style) st.href none st.id
  let po : ObjectParams := { data := getProp attrs "src" }
  let pd := plugin_decode c po s
  (⟨some (box.setObjectParams (some pd.2.1)), false, false⟩, st, pd.2.2)

/-- A default resolved style used by concrete witnesses. -/
def styleDefault : Style :=
  ⟨.inlineDisp, .noneF, .normal, .noneT, none, 0⟩

/-! ## Anchor, body, br, form handlers -/

/-- `box_a`: capture `href` into the status, reconcile `name` with the
status `id`, create a plain box; children always converted. -/
def box_a (attrs : List (String × String)) (st : Status) (style : Style) :
    BoxRes × Status :=
  let st := match getProp attrs "href" with
    | some h => { st with href := some h }
    | none => st
  let id : Option String := match getProp attrs "name" with
    | none => st.id
    | some nm =>
      match st.id with
      | some i => if i = nm then some i else none
      | none => some (squash_whitespace nm)
  let box := box_create (some style) st.href st.title id
  (⟨some box, true, false⟩, st)

/-- `box_body`: record the background colour on the document; plain box
with children converted. -/
def box_body (st : Status) (style : Style) (s : BState) :
    BoxRes × Status × BState :=
  let s := { s with backgroundColour := some style.backgroundColor }
  (⟨some (box_create (some style) st.href st.title st.id), true, false⟩, st, s)

/-- `box_br`: plain box forced to `BOX_BR`; children never converted. -/
def box_br (st : Status) (style : Style) : BoxRes × Status :=
  (⟨some ((box_create (some style) st.href st.title st.id).setKind .br),
    false, false⟩, st)

/-- `box_form`: without an `action` attribute the box is a plain box and no
form context is opened; otherwise a new form is opened and becomes the
status's current form. -/
def box_form (attrs : List (String × String)) (st : Status) (style : Style)
    (s : BState) : BoxRes × Status × BState :=
  let box := box_create (some style) st.href st.title st.id
  match getProp attrs "action" with
  | none => (⟨some box, true, false⟩, st, s)
  | some action =>
    let m : FormMethod :=
      match getProp attrs "method" with
      | some me =>
        if eqIgnoreCase me "post" then
          match getProp attrs "enctype" with
          | some e => if eqIgnoreCase e "multipart/form-data"
              then .postMultipart else .postUrlenc
          | none => .postUrlenc
        else .get
      | none => .get
    let f : Form := ⟨s.nextForm, action, m⟩
    let s := { s with forms := s.forms ++ [f], nextForm := s.nextForm + 1 }
    (⟨some box, true, false⟩, { st with currentForm := some f.id }, s)

/-! ## Form-control handlers -/

/-- The registration step of the handlers:
`if (status->current_form) form_add_control(...); else gadget->form = 0;`.
The registered snapshot is the final control (in the C code the form holds
a pointer, so later field assignments are visible through the form). -/
def registerControl (st : Status) (s : BState) (g : Gadget) : Gadget × BState :=
  match st.currentForm with
  | some f => form_add_control s f g
  | none => ({ g with form := none }, s)

/-- `form_add_option`.
Modelled from the spec: appends the option to the control's option list,
counts it as selected when marked, and makes it the control's current
option when selected. -/
def form_add_option (g : Gadget) (value text : String) (selected : Bool) :
    Gadget :=
  let opt : FormOption := ⟨value, text, selected, selected⟩
  { g with items := g.items ++ [opt],
           numSelected := g.numSelected + (if selected then 1 else 0),
           current := if selected then some opt else g.current }

/-- `box_select_add_option`: the option's text is its squashed content, the
value defaults to the text, `selected` is attribute presence. -/
def box_select_add_option (g : Gadget) (n : Node) : Gadget :=
  let text := squash_whitespace (nodeContent n)
  let value := match n with
    | .element _ a _ _ => (getProp a "value").getD text
    | _ => text
  let selected := match n with
    | .element _ a _ _ => hasProp a "selected"
    | _ => false
  form_add_option g value text selected

/-- The `<optgroup>` inner loop of `box_select`: collect `<option>`
children. -/
def select_scan_group (g : Gadget) : List Node → Gadget
  | [] => g
  | n :: rest =>
    if n.name = "option" then select_scan_group (box_select_add_option g n) rest
    else select_scan_group g rest

/-- The outer option-collection loop of `box_select`. -/
def select_scan (g : Gadget) : List Node → Gadget
  | [] => g
  | n :: rest =>
    if n.name = "option" then select_scan (box_select_add_option g n) rest
    else if n.name = "optgroup" then
      select_scan (select_scan_group g (match n with
        | .element _ _ _ cs => cs
        | _ => [])) rest
    else select_scan g rest

/-- The widget text shape shared by `box_input_text`, `box_select` and the
submit/reset/button branches of `box_input`: one anonymous inline
container holding one cloned-style inline text box. -/
def widgetTextIC (style : Style) (txt : String) : Box :=
  mkIC [((box_create (some style) none none none).setStyleClone).setTextLen
    (some txt) txt.length]

/-- `box_select`: collect options (directly and through `<optgroup>`); with
zero options the whole element is ignored — no box, no error; otherwise
build an inline-block box showing the selection state and register the
control. -/
def box_select (attrs : List (String × String)) (children : List Node)
    (st : Status) (style : Style) (s : BState) : BoxRes × Status × BState :=
  let g : Gadget := { kind := .select, multiple := hasProp attrs "multiple" }
  let g := select_scan g children
  if g.items.length = 0 then (⟨none, false, false⟩, st, s)
  else
    let g := { g with name := getProp attrs "name" }
    let box := (box_create (some style) none none st.id).setKind .inlineBlock
    let g : Gadget :=
      if ¬ g.multiple ∧ g.numSelected = 0 then
        match g.items with
        | [] => g
        | o :: rest =>
          let o' := { o with selected := true, initialSelected := true }
          { g with items := o' :: rest, current := some o', numSelected := 1 }
      else g
    let txt : String :=
      if g.numSelected = 0 then messages_get "Form_None"
      else if g.numSelected = 1 then (g.current.map (·.text)).getD ""
      else messages_get "Form_Many"
    let gr := registerControl st s g
    let box := (box.setChildren [widgetTextIC style txt]).setGadget
      (some gr.1)
    (⟨some box, false, false⟩, st, gr.2)

/-- `box_input_text`: the shared text/password input shape — an
inline-block box holding one inline container with one inline text box
(asterisks for passwords, NBSP-protected value otherwise); `maxlength`
defaults to 100. -/
def box_input_text (attrs : List (String × String)) (st : Status)
    (style : Style) (password : Bool) : Box :=
  let box := (box_create (some style) none none st.id).setKind .inlineBlock
  let g : Gadget := { kind := if password then .password else .textbox }
  let ml : Int := match getProp attrs "maxlength" with
    | some v => atoiC v
    | none => 100
  let g := { g with maxlength := ml }
  let value := (getProp attrs "value").getD ""
  let g := { g with value := some value, initialValue := some value,
                    length := value.length }
  let itext :=
    if password then String.mk (List.replicate value.length '*')
    else cnv_space2nbsp value
  (box.setChildren [widgetTextIC style itext]).setGadget (some g)

/-- `box_button`: inline-block box with a submit/reset control registered
with the open form; `type="button"` (or unknown) gives no control and the
children are rendered. -/
def box_button (attrs : List (String × String)) (st : Status) (style : Style)
    (s : BState) : BoxRes × Status × BState :=
  let box := (box_create (some style) none none st.id).setKind .inlineBlock
  let mkGadget : GadgetKind → BoxRes × Status × BState := fun k =>
    let g : Gadget := { kind := k, name := getProp attrs "name",
                        value := getProp attrs "value" }
    let gr := registerControl st s g
    (⟨some (box.setGadget (some gr.1)), true, false⟩, st, gr.2)
  match getProp attrs "type" with
  | none => mkGadget .submit
  | some t =>
    if eqIgnoreCase t "submit" then mkGadget .submit
    else if eqIgnoreCase t "reset" then mkGadget .reset
    else (⟨some box, true, false⟩, st, s)

/-- The `type`-dispatch of `box_input`; each branch yields the created
box (if any), the local `gadget` variable (if set) and the state. -/
def box_input_branch (c : Content) (attrs : List (String × String))
    (st : Status) (style : Style) (s : BState) :
    Option Box × Option Gadget × BState :=
  let type := getProp attrs "type"
  match type with
    | some t =>
      if eqIgnoreCase t "password" then
        let box := box_input_text attrs st style true
        (some box, box.gadget, s)
      else if eqIgnoreCase t "file" then
        let g : Gadget := { kind := .file }
        let box := ((box_create (some style) none none st.id).setKind
          .inlineBlock).setGadget (some g)
        (some box, some g, s)
      else if eqIgnoreCase t "hidden" then
        let g : Gadget := { kind := .hidden }
        let g := match getProp attrs "value" with
          | some v => { g with value := some v, length := v.length }
          | none => g
        (none, some g, s)
      else if eqIgnoreCase t "checkbox" ∨ eqIgnoreCase t "radio" then
        let g : Gadget :=
          { kind := if eqIgnoreCase (t.take 1) "c" then .checkbox else .radio,
            selected := hasProp attrs "checked" }
        let g := match getProp attrs "value" with
          | some v => { g with value := some v, length := v.length }
          | none => g
        let box := (box_create (some style) none none st.id).setGadget (some g)
        (some box, some g, s)
      else if eqIgnoreCase t "submit" ∨ eqIgnoreCase t "reset" then
        let r := box_button attrs st style s
        match r.1.box with
        | none => (none, none, r.2.2)
        | some box =>
          let txt := match box.gadget.bind (·.value) with
            | some v => v
            | none =>
              if (box.gadget.map (·.kind)).getD .submit = .submit
              then messages_get "Form_Submit" else messages_get "Form_Reset"
          (some (box.setChildren [widgetTextIC style txt]), none, r.2.2)
      else if eqIgnoreCase t "button" then
        let r := box_button attrs st style s
        match r.1.box with
        | none => (none, none, r.2.2)
        | some box =>
          let txt := (getProp attrs "value").getD "Button"
          (some (box.setChildren [widgetTextIC style txt]), none, r.2.2)
      else if eqIgnoreCase t "image" then
        let g : Gadget := { kind := .image }
        let box := (box_create (some style) none none st.id).setGadget (some g)
        let s := match getProp attrs "src" with
          | some src =>
            match c.urlJoin src c.baseUrl with
            | some url =>
              if ¬ eqIgnoreCase url c.baseUrl
              then { s with fetches := s.fetches ++ [⟨url, false⟩] }
              else s
            | none => s
          | none => s
        (some box, some g, s)
      else
        let box := box_input_text attrs st style false
        (some box, box.gadget, s)
    | none =>
      let box := box_input_text attrs st style false
      (some box, box.gadget, s)

/-- `box_input`: dispatch on the (case-insensitive) `type` attribute; the
hidden branch creates a control but no box; afterwards the control (when
the local `gadget` variable was set) is named and registered. -/
def box_input (c : Content) (attrs : List (String × String)) (st : Status)
    (style : Style) (s : BState) : BoxRes × Status × BState :=
  let branch := box_input_branch c attrs st style s
  match branch.2.1 with
  | some g =>
    let g := { g with name := getProp attrs "name" }
    let gr := registerControl st branch.2.2 g
    (⟨branch.1.map (·.setGadget (some gr.1)), false, false⟩, st, gr.2)
  | none => (⟨branch.1, false, false⟩, st, branch.2.2)

/-- A document whose external collaborators are all trivial, for concrete
witnesses that do not involve URL resolution. -/
def contentTrivial : Content := ⟨"", fun _ _ => none, fun _ => false⟩

/-! ## Textarea and image handlers -/

/-- `strcspn(current, "\r\n")` stopping characters. -/
def notCRLF (c : Char) : Bool := c ≠ '\r' ∧ c ≠ '\n'

/-- One line's inline text box inside a textarea. -/
def taInline (style : Style) (seg : List Char) : Box :=
  ((box_create (some style) none none none).setStyleClone).setTextLen
    (some ⟨seg⟩) seg.length

/-- A `BOX_BR` separator inside a textarea. -/
def taBr (style : Style) : Box :=
  ((box_create (some style) none none none).setKind .br).setStyleClone

/-- The textarea content loop: one inline box per line, `BOX_BR` boxes
between lines (a trailing line break still yields a final zero-length
inline box, matching the `while (1)` loop). -/
def textarea_lines (style : Style) (l : List Char) : List Box :=
  let seg := l.takeWhile notCRLF
  match h : l.dropWhile notCRLF with
  | [] => [taInline style seg]
  | '\r' :: '\n' :: r => taInline style seg :: taBr style :: textarea_lines style r
  | _ :: r => taInline style seg :: taBr style :: textarea_lines style r
termination_by l.length
decreasing_by
  · have hle := (List.dropWhile_sublist notCRLF (l := l)).length_le
    rw [h] at hle
    simp only [List.length_cons] at hle
    omega
  · have hle := (List.dropWhile_sublist notCRLF (l := l)).length_le
    rw [h] at hle
    simp only [List.length_cons] at hle
    omega

/-- `box_textarea`: an inline-block box holding one inline container with
the content lines; the textarea control is registered with the open form;
children are never converted (content already consumed). -/
def box_textarea (attrs : List (String × String)) (children : List Node)
    (st : Status) (style : Style) (s : BState) : BoxRes × Status × BState :=
  let box := (box_create (some style) none none st.id).setKind .inlineBlock
  let g : Gadget := { kind := .textarea, name := getProp attrs "name" }
  let lines := textarea_lines style (nodeContentList children).data
  let gr := registerControl st s g
  let box := (box.setChildren [mkIC lines]).setGadget (some gr.1)
  (⟨some box, false, false⟩, st, gr.2)

/-- The box built by `box_image`: `alt` becomes the box text, `usemap` is
captured (leading `#` dropped). -/
def imageBox (attrs : List (String × String)) (st : Status) (style : Style) :
    Box :=
  let box := box_create (some style) st.href st.title st.id
  let box := match getProp attrs "alt" with
    | some a => box.setTextLen (some (squash_whitespace a))
        (squash_whitespace a).length
    | none => box
  match getProp attrs "usemap" with
  | some m => box.setUsemap (some (if m.take 1 = "#" then m.drop 1 else m))
  | none => box

/-- The fetch decision of `box_image`: request a fetch only for a
well-formed non-self `src` (the self test here is case-sensitive
`strcmp`). -/
def imageFetch (c : Content) (attrs : List (String × String)) (s : BState) :
    BState :=
  match getProp attrs "src" with
  | none => s
  | some src =>
    match c.urlJoin (stripC src) c.baseUrl with
    | none => s
    | some url =>
      if url = c.baseUrl then s
      else { s with fetches := s.fetches ++ [⟨url, false⟩] }

/-- `box_image`: box created regardless of `src` validity (every non-error
exit returns the box with children never converted); the fetch happens on
the successful resolution path only. -/
def box_image (c : Content) (attrs : List (String × String)) (st : Status)
    (style : Style) (s : BState) : BoxRes × Status × BState :=
  (⟨some (imageBox attrs st style), false, false⟩, st, imageFetch c attrs s)

/-! ## The text-node constructor -/

/-- Mark the last box in a list with a trailing space
(`(*inline_container)->last->space = 1` / `box->prev->space = 1`). -/
def setLastSpace : List Box → List Box
  | [] => []
  | [b] => [b.setSpace]
  | b :: rest => b :: setLastSpace rest

/-- One pre-mode text segment's box (`BOX_INLINE`, cloned style, the
segment as text). -/
def preTextBox (style : Style) (href : Option String) (seg : List Char) : Box :=
  ((box_create (some style) href none none).setStyleClone).setTextLen
    (some ⟨seg⟩) seg.length

/-- The pre-mode line loop of `box_construct_text`: for each segment
(split at CR, LF or CRLF) append a text box to the inline container
(creating one if the slot is empty); after each boundary the container
slot is reset to empty; the loop ends when the remaining text is empty. -/
def pre_lines (style : Style) (href : Option String) (ctx : Ctx)
    (l : List Char) : Ctx :=
  let seg := l.takeWhile notCRLF
  let ctx := ctx.addInline (preTextBox style href seg)
  match h : l.dropWhile notCRLF with
  | [] => ctx
  | '\r' :: '\n' :: r => if r = [] then ctx.flush else pre_lines style href ctx.flush r
  | _ :: r => if r = [] then ctx.flush else pre_lines style href ctx.flush r
termination_by l.length
decreasing_by
  · have hle := (List.dropWhile_sublist notCRLF (l := l)).length_le
    rw [h] at hle
    simp only [List.length_cons] at hle
    omega
  · have hle := (List.dropWhile_sublist notCRLF (l := l)).length_le
    rw [h] at hle
    simp only [List.length_cons] at hle
    omega

/-- The box built by the Normal/NoWrap branch of `box_construct_text`,
before the leading-space strip: the (possibly transformed and
NBSP-converted) text and the text box carrying it (`box->space` set when a
trailing space was stripped). -/
def normalTextPieces (pstyle : Style) (href : Option String)
    (text : List Char) : List Char × Box :=
  let len0 := text.length
  let strip := 1 < len0 ∧ text.getLast? = some ' '
  let len1 := if strip then len0 - 1 else len0
  let text1 := if pstyle.textTransform ≠ .noneT
    then box_text_transform text len1 pstyle.textTransform else text
  let nb := pstyle.whiteSpace = .nowrap ∧ (text1.take len1).contains ' '
  let text2 := if nb then cnv2nbspL text1 else text1
  let len2 := if nb then (cnv2nbspL text1).length else len1
  let box0 := ((box_create (some pstyle) href none none).setStyleClone).setTextLen
    (some ⟨text2⟩) len2
  (text2, if strip then box0.setSpace else box0)

/-- `box_construct_text`: under Normal/NoWrap squash whitespace, drop a
lone-space text (marking the container's last box), otherwise build one
inline text box with trailing/leading space stripping and the NoWrap NBSP
conversion; under Pre/PreLine/PreWrap convert spaces to NBSP, apply
text-transform, and run the line loop. -/
def box_construct_text (pstyle : Style) (st : Status) (content : String)
    (ctx : Ctx) : Ctx :=
  if pstyle.whiteSpace = .normal ∨ pstyle.whiteSpace = .nowrap then
    let text := squashWS content.data
    if text = [' '] then
      match ctx.ic with
      | some cs => { ctx with ic := some (setLastSpace cs) }
      | none => ctx
    else
      let p := normalTextPieces pstyle st.href text
      let cs := (ctx.ic).getD []
      if p.1.head? = some ' ' then
        { ctx with ic := some (setLastSpace cs ++
            [p.2.setTextLen (some ⟨p.1.drop 1⟩) (p.2.length - 1)]) }
      else
        { ctx with ic := some (cs ++ [p.2]) }
  else
    let text := cnv2nbspL content.data
    let text := if pstyle.textTransform ≠ .noneT
      then box_text_transform text text.length pstyle.textTransform else text
    pre_lines pstyle st.href ctx text

/-! ## The frameset handler -/

/-- The table column descriptors built by `box_frameset` (each bounded
min 1 / max 10000 in the source; only type and width are modelled). -/
def frameset_cols (colW : Option (List MultiLength)) : List ColDesc :=
  match colW with
  | some ws => ws.map (fun w =>
      match w.type with
      | .px => ⟨.fixed, w.value⟩
      | .percent => ⟨.percent, w.value⟩
      | .relative => ⟨.relative, w.value⟩)
  | none => [⟨.relative, 1⟩]

/-- The `<frame src=...>` fetch step: skip a missing `src`, a failing
resolution, or a self-inclusion (case-insensitive); otherwise request the
frame fetch. -/
def frame_fetch (c : Content) (attrs : List (String × String)) (s : BState) :
    BState :=
  match getProp attrs "src" with
  | none => s
  | some src =>
    match c.urlJoin (stripC src) c.baseUrl with
    | none => s
    | some url =>
      if eqIgnoreCase url c.baseUrl then s
      else { s with fetches := s.fetches ++ [⟨url, false⟩] }

/-- A frameset table cell (`BOX_TABLE_CELL`, style shared with the
frameset). -/
def cellBox (style : Style) (children : List Box) : Box :=
  ((box_create (some style) none none none).setKind .tableCell).setChildren
    children

/-- The per-frame object box (`BOX_BLOCK`). -/
def objectBox (style : Style) : Box :=
  (box_create (some style) none none none).setKind .block

/-- A frameset table row (`BOX_TABLE_ROW`). -/
def rowBox (style : Style) (cells : List Box) : Box :=
  ((box_create (some style) none none none).setKind .tableRow).setChildren cells

/-- Is this child a `<frame>` or nested `<frameset>` element?  (The scan
loop of `box_frameset` skips everything else.) -/
def isFrameNode (n : Node) : Bool :=
  n.isElement ∧ (n.name = "frame" ∨ n.name = "frameset")

mutual

/-- `box_frameset`: parse `rows`/`cols` (defaulting to a single relative
column), then iterate `<frame>`/`<frameset>` children in row-major order
building one `BOX_TABLE_ROW` per row and one `BOX_TABLE_CELL` per column;
nested framesets recurse (style shared, no fetch); `<frame>` children get a
`BOX_BLOCK` object box and possibly a fetch. -/
def box_frameset (c : Content) (n : Node) (st : Status) (style : Style)
    (s : BState) : Box × BState :=
  match n with
  | .element _ attrs _ children =>
    let box := (box_create (some style) none st.title st.id).setKind .table
    let rows := match getProp attrs "rows" with
      | some v => (box_parse_multi_lengths v).length
      | none => 1
    let colW := (getProp attrs "cols").map box_parse_multi_lengths
    let cols := match colW with
      | some ws => ws.length
      | none => 1
    let box := box.setCol (frameset_cols colW)
    if children.isEmpty ∨ rows = 0 then (box, s)
    else
      let r := frameset_iter c st style children rows cols cols [] [] s
      (box.setChildren r.1, r.2)
  | _ => (box_create (some style) none st.title st.id, s)
termination_by (sizeOf n, 0)

/-- The row-major iteration of `box_frameset`.  `rowFuel` counts the row
iterations still allowed including the currently open row; `colFuel` the
cells still to fill in it; `cur` the open row's cells; `acc` the completed
rows.  A row box is created at each row-loop entry, so partial and empty
rows remain in the table. -/
def frameset_iter (c : Content) (st : Status) (style : Style)
    (ns : List Node) (rowFuel colFuel cols : Nat) (cur : List Box)
    (acc : List Box) (s : BState) : List Box × BState :=
  match ns with
  | [] => (acc ++ [rowBox style cur], s)
  | n :: rest =>
    if colFuel = 0 then
      if rowFuel ≤ 1 then (acc ++ [rowBox style cur], s)
      else frameset_iter c st style (n :: rest) (rowFuel - 1) cols cols
        [] (acc ++ [rowBox style cur]) s
    else if ¬ isFrameNode n then
      frameset_iter c st style rest rowFuel colFuel cols cur acc s
    else if n.name = "frameset" then
      let r := box_frameset c n st style s
      frameset_iter c st style rest rowFuel (colFuel - 1) cols
        (cur ++ [cellBox style [r.1.setStyleClone]]) acc r.2
    else
      let s := frame_fetch c (match n with
        | .element _ a _ _ => a
        | _ => []) s
      frameset_iter c st style rest rowFuel (colFuel - 1) cols
        (cur ++ [cellBox style [objectBox style]]) acc s
termination_by (sizeOf ns, rowFuel)

end

/-! ## The generic element constructor and the conversion recursion -/

/-- The CSS-display-to-box-type mapping table (`box_map`). -/
def box_map : Display → BoxKind
  | .inlineDisp => .inlineBox
  | .block => .block
  | .listItem => .block
  | .runIn => .inlineBox
  | .inlineBlock => .inlineBlock
  | .table => .table
  | .inlineTable => .table
  | .tableRowGroup => .tableRowGroup
  | .tableHeaderGroup => .tableRowGroup
  | .tableFooterGroup => .tableRowGroup
  | .tableRow => .tableRow
  | .tableColumnGroup => .inlineBox
  | .tableColumn => .inlineBox
  | .tableCell => .tableCell
  | .tableCaption => .inlineBox
  | .noneDisp => .block

/-- The `colspan`/`rowspan` block at the end of `box_construct_element`:
`strtol` the attribute, and when `MAX_SPAN (100) < value` reset it to 1;
absent attributes leave the `box_create` default of 1. -/
def applySpans (box : Box) (attrs : List (String × String)) : Box :=
  let box := match getProp attrs "colspan" with
    | some v =>
      let n := strtol v
      box.setSpans (if 100 < n then 1 else n) box.rows
    | none => box
  match getProp attrs "rowspan" with
  | some v =>
    let n := strtol v
    box.setSpans box.columns (if 100 < n then 1 else n)
  | none => box

/-- The background-image fetch at the `end:` label of
`box_construct_element`: if the (attached) style carries a background
URI, request a background fetch for it. -/
def bgFetch (box : Box) (s : BState) : BState :=
  match box.style with
  | some sty =>
    match sty.backgroundImage with
    | some u => { s with fetches := s.fetches ++ [⟨u, true⟩] }
    | none => s
  | none => s

/-- The special-element dispatch (`element_table` + `bsearch` by
`strcmp`): `some` when the name has a dedicated handler. -/
def element_dispatch (c : Content) (name : String)
    (attrs : List (String × String)) (style : Style) (children : List Node)
    (st : Status) (s : BState) : Option (BoxRes × Status × BState) :=
  match name with
  | "a" =>
    let r := box_a attrs st style
    some (r.1, r.2, s)
  | "body" => some (box_body st style s)
  | "br" =>
    let r := box_br st style
    some (r.1, r.2, s)
  | "button" => some (box_button attrs st style s)
  | "embed" => some (box_embed c attrs st style s)
  | "form" => some (box_form attrs st style s)
  | "frameset" =>
    let r := box_frameset c (Node.element name attrs style children) st style s
    some (⟨some r.1, false, false⟩, st, r.2)
  | "iframe" => some (box_iframe c attrs st style s)
  | "img" => some (box_image c attrs st style s)
  | "input" => some (box_input c attrs st style s)
  | "object" => some (box_object c attrs children st style s)
  | "select" => some (box_select attrs children st style s)
  | "textarea" => some (box_textarea attrs children st style s)
  | _ => none

mutual

/-- `convert_xml_to_box`: dispatch on the node type; non-element,
non-text nodes (comments etc.) are ignored. -/
def convert_xml_to_box (c : Content) (n : Node) (pstyle : Style) (ctx : Ctx)
    (st : Status) (s : BState) : Ctx × BState :=
  match n with
  | .element name attrs style children =>
    box_construct_element c name attrs style children ctx st s
  | .text content => (box_construct_text pstyle st content ctx, s)
  | .other => (ctx, s)
termination_by (sizeOf n, 3)

/-- `box_construct_element`: resolve the style (attached to the node by
the external resolver), drop `display: none` subtrees, shadow
`title`/`id`, run the special-element handler if any, then place the box
(`element_place`). -/
def box_construct_element (c : Content) (name : String)
    (attrs : List (String × String)) (style : Style) (children : List Node)
    (ctx : Ctx) (st : Status) (s : BState) : Ctx × BState :=
  if style.display = .noneDisp then (ctx, s)
  else
    let title := (getProp attrs "title").map squash_whitespace
    let id := (getProp attrs "id").map squash_whitespace
    let st := match title with
      | some t => { st with title := some t }
      | none => st
    let st := match id with
      | some i => { st with id := some i }
      | none => st
    match element_dispatch c name attrs style children st s with
    | some (res, st', s') =>
      match res.box with
      | none => (ctx, s')
      | some box =>
        element_place c box res.convertChildren attrs style children title id
          ctx st' s'
    | none =>
      let box := box_create (some style) st.href title id
      element_place c box true attrs style children title id ctx st s
termination_by (sizeOf children, 2)

/-- The placement part of `box_construct_element` (lines 4416-4527):
remap a default `BOX_INLINE` type through `box_map`, then attach the box
as inline / inline-block / float / non-inline, recursing into children as
requested; `colspan`/`rowspan` apply on the non-inline fall-through; the
background fetch happens for every built box. -/
def element_place (c : Content) (box : Box) (convertChildren : Bool)
    (attrs : List (String × String)) (style : Style) (children : List Node)
    (title id : Option String) (ctx : Ctx) (st : Status) (s : BState) :
    Ctx × BState :=
  let box := if box.kind = .inlineBox then box.setKind (box_map style.display)
    else box
  if box.kind = .inlineBox ∨ box.kind = .inlineBlock ∨
      style.float = .left ∨ style.float = .right ∨ box.kind = .br then
    if box.kind = .inlineBox ∨ box.kind = .br then
      let ctx := ctx.addInline box
      let r := if convertChildren then convert_list c children style ctx st s
        else (ctx, s)
      (r.1, bgFetch box r.2)
    else if box.kind = .inlineBlock then
      let r :=
        if convertChildren then convert_list c children style ⟨[], none⟩ st s
        else (⟨[], none⟩, s)
      let box := if convertChildren
        then box.setChildren (box.children ++ r.1.finalize) else box
      (ctx.addInline box, bgFetch box r.2)
    else
      let box := if box.kind = .inlineBox ∨ box.kind = .inlineBlock
        then box.setKind .block else box
      let r :=
        if convertChildren then convert_list c children style ⟨[], none⟩ st s
        else (⟨[], none⟩, s)
      let box := if convertChildren
        then box.setChildren (box.children ++ r.1.finalize) else box
      let box := applySpans box attrs
      let wrapper : Box := .mk
        (if style.float = .left then .floatLeft else .floatRight) [box] none
        false none 0 false 1 1 st.href title id none none none []
      (ctx.addInline wrapper, bgFetch box r.2)
  else
    let r :=
      if convertChildren then convert_list c children style ⟨[], none⟩ st s
      else (⟨[], none⟩, s)
    let box := if convertChildren
      then box.setChildren (box.children ++ r.1.finalize) else box
    let box := applySpans box attrs
    (ctx.addBlock box, bgFetch box r.2)
termination_by (sizeOf children, 1)

/-- The child-conversion loop (`for (c = n->children; ...)`), threading
the parent context and state. -/
def convert_list (c : Content) (ns : List Node) (pstyle : Style) (ctx : Ctx)
    (st : Status) (s : BState) : Ctx × BState :=
  match ns with
  | [] => (ctx, s)
  | n :: rest =>
    let r := convert_xml_to_box c n pstyle ctx st s
    convert_list c rest pstyle r.1 st r.2
termination_by (sizeOf ns, 0)

end

/-- The resolved style of the root call (`css_base_style`, display
block). -/
def baseStyle : Style := ⟨.block, .noneF, .normal, .noneT, none, 0⟩

/-- `xml_to_box`: construct the whole tree under an anonymous block root
with an empty status and state; the root's child list is the resulting
forest.  (`box_normalise_block`, which runs afterwards in the source, is
repository code not among the provided sources and is not modelled.) -/
def xml_to_box (c : Content) (n : Node) : List Box × BState :=
  let r := convert_xml_to_box c n baseStyle ⟨[], none⟩ {} {}
  (r.1.finalize, r.2)

/-! ## C2: colspan/rowspan spans -/

/-- The element names with dedicated handlers (`element_table`). -/
def specialNames : List String :=
  ["a", "body", "br", "button", "embed", "form", "frameset", "iframe",
   "img", "input", "object", "select", "textarea"]

/-- The effective column span as the code computes it: `strtol`, with
values greater than `MAX_SPAN` (100) reset to 1, every other parsed value
(including zero and negatives) kept, and 1 when the attribute is absent. -/
def colspanEff (attrs : List (String × String)) : Int :=
  match getProp attrs "colspan" with
  | none => 1
  | some v => if 100 < strtol v then 1 else strtol v

/-- The effective row span, analogously. -/
def rowspanEff (attrs : List (String × String)) : Int :=
  match getProp attrs "rowspan" with
  | none => 1
  | some v => if 100 < strtol v then 1 else strtol v

/-- The resolved style of a plain table cell, for concrete inputs. -/
def cellStyleTd : Style := ⟨.tableCell, .noneF, .normal, .noneT, none, 0⟩

/-! ## C6: selects with zero options -/

/-- The options the `<optgroup>` inner loop collects. -/
def countOptionsGroup : List Node → Nat
  | [] => 0
  | n :: rest =>
    if n.name = "option" then 1 + countOptionsGroup rest
    else countOptionsGroup rest

/-- The option descendants the `box_select` scan collects: direct
`<option>` children plus `<option>` children of direct `<optgroup>`
children. -/
def countOptions : List Node → Nat
  | [] => 0
  | n :: rest =>
    if n.name = "option" then 1 + countOptions rest
    else if n.name = "optgroup" then
      countOptionsGroup (match n with
        | .element _ _ _ cs => cs
        | _ => []) + countOptions rest
    else countOptions rest

/-! ## C3: the pre-mode line loop -/

mutual

/-- Number of `BOX_BR` (LineBreak) boxes in a box's subtree. -/
def brCountBox : Box → Nat
  | .mk k cs _ _ _ _ _ _ _ _ _ _ _ _ _ _ =>
    (if k = .br then 1 else 0) + brCountBoxes cs

/-- Number of `BOX_BR` boxes in a forest. -/
def brCountBoxes : List Box → Nat
  | [] => 0
  | b :: rest => brCountBox b + brCountBoxes rest

end

/-- Number of `BOX_BR` boxes in a construction context. -/
def ctxBrCount (ctx : Ctx) : Nat :=
  brCountBoxes ctx.done + (match ctx.ic with
    | none => 0
    | some cs => brCountBoxes cs)

/-- The segmentation performed by the pre-mode loop: the list of segments
whose containers get closed (each by a line boundary), and the final
segment left in an open container, if any (a trailing boundary closes the
last container and leaves nothing open). -/
def preParts (l : List Char) : List (List Char) × Option (List Char) :=
  let seg := l.takeWhile notCRLF
  match h : l.dropWhile notCRLF with
  | [] => ([], some seg)
  | '\r' :: '\n' :: r =>
    if r = [] then ([seg], none)
    else (seg :: (preParts r).1, (preParts r).2)
  | _ :: r =>
    if r = [] then ([seg], none)
    else (seg :: (preParts r).1, (preParts r).2)
termination_by l.length
decreasing_by
  · have hle := (List.dropWhile_sublist notCRLF (l := l)).length_le
    rw [h] at hle
    simp only [List.length_cons] at hle
    omega
  · have hle := (List.dropWhile_sublist notCRLF (l := l)).length_le
    rw [h] at hle
    simp only [List.length_cons] at hle
    omega

/-- A resolved style with `white-space: pre`. -/
def preStyle : Style := ⟨.inlineDisp, .noneF, .pre, .noneT, none, 0⟩

/-! ## C1: the inline-container structural invariant -/

/-- The parent/child kind constraint of the claim: an Inline or LineBreak
child requires an InlineContainer parent, and an InlineContainer never has
a Block child. -/
def parentOk (k ck : BoxKind) : Bool :=
  (if ck = .inlineBox ∨ ck = .br then k = .inlineContainer else true) &&
  (if k = .inlineContainer then ck ≠ .block else true)

mutual

/-- The invariant holds recursively below this box. -/
def wfBox : Box → Bool
  | .mk k cs _ _ _ _ _ _ _ _ _ _ _ _ _ _ => wfKids k cs

/-- All boxes in the list satisfy the constraint against parent kind `k`
and are recursively well-formed. -/
def wfKids : BoxKind → List Box → Bool
  | _, [] => true
  | k, b :: rest => parentOk k b.kind && wfBox b && wfKids k rest

end

/-- What may sit among a parent's closed children: recursively well-formed
and neither Inline nor LineBreak (those live only inside containers). -/
def doneOk (b : Box) : Bool :=
  wfBox b && ¬(b.kind = .inlineBox) && ¬(b.kind = .br)

/-- What may sit inside an open inline container: recursively well-formed
and not Block-kind. -/
def icOk (b : Box) : Bool :=
  wfBox b && ¬(b.kind = .block)

/-- The construction-context invariant. -/
def ctxOK (ctx : Ctx) : Bool :=
  ctx.done.all doneOk && (match ctx.ic with
    | none => true
    | some cs => cs.all icOk)

/-- What `element_place` needs of a handler's result: a produced box is
recursively well-formed, is not itself an inline container, and has no
children yet when its kind is still the default `BOX_INLINE` (so the
`box_map` remap is safe) or when the handler asks for child conversion. -/
def boxResOk (res : BoxRes) : Prop :=
  ∀ b, res.box = some b → wfBox b = true ∧ ¬(b.kind = .inlineContainer) ∧
    (b.kind = .inlineBox → b.children = []) ∧
    (res.convertChildren = true → b.children = [])

/-- What a handler-produced box must satisfy on its own (the box part of
`boxResOk`). -/
def boxOk (b : Box) : Prop :=
  wfBox b = true ∧ ¬(b.kind = .inlineContainer) ∧
    (b.kind = .inlineBox → b.children = [])

theorem parse_multi_go_length (n : Nat) (l : List Char) :
    (parse_multi_go n l).length = n := by
  induction n generalizing l with
  | zero => rfl
  | succ m ih => simp [parse_multi_go, ih]

theorem parse_multi_go_pos (n : Nat) (l : List Char) :
    ∀ e ∈ parse_multi_go n l, 0 < e.value := by
  induction n generalizing l with
  | zero => intro e h; simp [parse_multi_go] at h
  | succ m ih =>
    intro e h
    simp only [parse_multi_go, List.mem_cons] at h
    rcases h with h | h
    · subst h
      simp only [parse_multi_step]
      split
      · norm_num
      · rename_i hv
        exact lt_of_not_le hv
    · exact ih _ e h

/-- C9: for every input string, the multi-length parser returns exactly
(number of commas) + 1 entries — at least one, even for an empty or
unparsable string; each entry's type is decided by the character following
the parsed number (`%` percent, `*` relative, otherwise pixels); any entry
whose parsed numeric value is zero or negative is replaced by value 1. -/
theorem claim_C9_multi_length_parse :
    (∀ s : String,
      (box_parse_multi_lengths s).length = s.data.count ',' + 1 ∧
      1 ≤ (box_parse_multi_lengths s).length ∧
      ∀ e ∈ box_parse_multi_lengths s, 0 < e.value) ∧
    (∀ l : List Char,
      (parse_multi_step l).1.type =
        (match (strtofC (l.dropWhile isSpaceC)).2 with
          | '%' :: _ => LengthType.percent
          | '*' :: _ => LengthType.relative
          | _ => LengthType.px) ∧
      (parse_multi_step l).1.value =
        (if (strtofC (l.dropWhile isSpaceC)).1 ≤ 0 then 1
         else (strtofC (l.dropWhile isSpaceC)).1)) := by
  refine ⟨fun s => ⟨parse_multi_go_length _ _, ?_, parse_multi_go_pos _ _⟩, fun l => ⟨?_, ?_⟩⟩
  · rw [box_parse_multi_lengths, parse_multi_go_length]
    exact Nat.succ_le_succ (Nat.zero_le _)
  · simp only [parse_multi_step]
  · simp only [parse_multi_step]

/-- Witness for C9 at the concrete input `"50%,3"`. -/
theorem claim_C9_multi_length_parse_witness :
    MultiLength.mk 50 .percent ∈ box_parse_multi_lengths "50%,3" ∧
    0 < (MultiLength.mk 50 .percent).value :=
  ⟨by decide, (claim_C9_multi_length_parse.1 "50%,3").2.2 ⟨50, .percent⟩ (by decide)⟩

theorem plugin_decode_check_self (c : Content) (po : ObjectParams)
    (url : String) (s : BState) (hself : eqIgnoreCase url c.baseUrl = true) :
    plugin_decode_check c po url s = (false, s) := by
  unfold plugin_decode_check
  split
  · rfl
  · split
    · rfl
    · simp [hself]

/-- C5: for every object element whose resolved target URL equals the
current document's own URL, resolution fails — no object fetch is
requested — and the element's children are converted (the handler returns
`convert_children = true`), so the fallback content is rendered. -/
theorem claim_C5_object_self_inclusion (c : Content)
    (attrs : List (String × String)) (children : List Node) (st : Status)
    (style : Style) (s : BState) (d cb url : String)
    (hdata : getProp attrs "data" = some d)
    (hcb : c.urlJoin ((getProp attrs "codebase").getD "./") c.baseUrl = some cb)
    (hurl : c.urlJoin d cb = some url)
    (hself : eqIgnoreCase url c.baseUrl = true) :
    (box_object c attrs children st style s).1.convertChildren = true ∧
    ((box_object c attrs children st style s).1.box).isSome = true ∧
    (box_object c attrs children st style s).2.2.fetches = s.fetches := by
  unfold box_object plugin_decode
  simp only [hdata, hcb, hurl, plugin_decode_check_self c _ url s hself]
  simp

/-- Witness for C5: `<object data="self.html">` inside the document
`self.html`. -/
theorem claim_C5_object_self_inclusion_witness :
    (box_object
        ⟨"self.html", fun rel base => if rel = "./" then some base else some rel,
          fun _ => false⟩
        [("data", "self.html")] [] {} styleDefault {}).1.convertChildren = true ∧
    ((box_object
        ⟨"self.html", fun rel base => if rel = "./" then some base else some rel,
          fun _ => false⟩
        [("data", "self.html")] [] {} styleDefault {}).1.box).isSome = true ∧
    (box_object
        ⟨"self.html", fun rel base => if rel = "./" then some base else some rel,
          fun _ => false⟩
        [("data", "self.html")] [] {} styleDefault {}).2.2.fetches = ({} : BState).fetches :=
  claim_C5_object_self_inclusion _ _ _ _ _ _ "self.html" "self.html" "self.html"
    (by decide) (by decide) (by decide) (by decide)

/-- C8 counterexample: `box_a` on a nested anchor with `href="inner"` while
an outer anchor already set `href="outer"` captures `"inner"` — the outer
anchor's href IS replaced, so capture is not conditional on the href being
unset. -/
theorem claim_C8_anchor_href_counterexample :
    (box_a [("href", "inner")] { href := some "outer" } styleDefault).2.href
      = some "inner" ∧
    (some "inner" : Option String) ≠ some "outer" := by
  constructor
  · rfl
  · decide

/-- C8 (amended): for every `a` element with an `href` attribute, the href
is captured into the construction status unconditionally — a nested
anchor's href replaces an outer anchor's for the nested subtree. -/
theorem claim_C8_anchor_href_amended (attrs : List (String × String))
    (st : Status) (style : Style) (h : String)
    (hh : getProp attrs "href" = some h) :
    (box_a attrs st style).2.href = some h := by
  unfold box_a
  simp only [hh]

/-- Witness for the amended C8 at a concrete anchor. -/
theorem claim_C8_anchor_href_amended_witness :
    (box_a [("href", "x")] {} styleDefault).2.href = some "x" :=
  claim_C8_anchor_href_amended [("href", "x")] {} styleDefault "x" (by decide)

theorem eqIgnoreCase_congr (a b c : String)
    (hab : eqIgnoreCase a b = true) :
    eqIgnoreCase a c = eqIgnoreCase b c := by
  unfold eqIgnoreCase at *
  rw [decide_eq_true_iff] at hab
  rw [hab]

/-- C7: for every input element with (case-insensitive) type `hidden`,
construction yields no box (and no error), but a form control of kind
hidden is still created, carrying the element's `name` attribute and its
`value` attribute as value, and it is registered with the currently open
form when one exists. -/
theorem claim_C7_hidden_input (c : Content) (attrs : List (String × String))
    (st : Status) (style : Style) (s : BState) (t : String) (f : Nat)
    (ht : getProp attrs "type" = some t)
    (hh : eqIgnoreCase t "hidden" = true)
    (hf : st.currentForm = some f) :
    (box_input c attrs st style s).1.box = none ∧
    (box_input c attrs st style s).1.memError = false ∧
    (box_input c attrs st style s).2.2.registered =
      s.registered ++ [(f,
        { kind := .hidden,
          name := getProp attrs "name",
          value := getProp attrs "value",
          length := ((getProp attrs "value").getD "").length,
          form := some f })] := by
  have hpw : eqIgnoreCase t "password" = false := by
    rw [eqIgnoreCase_congr t "hidden" _ hh]; decide
  have hfile : eqIgnoreCase t "file" = false := by
    rw [eqIgnoreCase_congr t "hidden" _ hh]; decide
  unfold box_input box_input_branch
  simp only [ht, hpw, hfile, hh]
  cases hv : getProp attrs "value" <;>
    simp [hv, registerControl, hf, form_add_control]

/-- Witness for C7: `<input type="hidden" value="x" name="n">` inside an
open form. -/
theorem claim_C7_hidden_input_witness :
    (box_input contentTrivial [("type", "hidden"), ("value", "x"), ("name", "n")]
      { currentForm := some 0 } styleDefault {}).1.box = none ∧
    (box_input contentTrivial [("type", "hidden"), ("value", "x"), ("name", "n")]
      { currentForm := some 0 } styleDefault {}).1.memError = false ∧
    (box_input contentTrivial [("type", "hidden"), ("value", "x"), ("name", "n")]
      { currentForm := some 0 } styleDefault {}).2.2.registered =
      ({} : BState).registered ++ [(0,
        { kind := .hidden,
          name := getProp [("type", "hidden"), ("value", "x"), ("name", "n")] "name",
          value := getProp [("type", "hidden"), ("value", "x"), ("name", "n")] "value",
          length := ((getProp [("type", "hidden"), ("value", "x"), ("name", "n")]
            "value").getD "").length,
          form := some 0 })] :=
  claim_C7_hidden_input contentTrivial _ _ styleDefault {} "hidden" 0
    (by decide) (by decide) (by decide)

theorem Box.kind_mk (k cs sty sc t l sp co ro h ti i u g po cd) :
    (Box.mk k cs sty sc t l sp co ro h ti i u g po cd).kind = k := rfl

theorem Box.children_mk (k cs sty sc t l sp co ro h ti i u g po cd) :
    (Box.mk k cs sty sc t l sp co ro h ti i u g po cd).children = cs := rfl

theorem Box.columns_mk (k cs sty sc t l sp co ro h ti i u g po cd) :
    (Box.mk k cs sty sc t l sp co ro h ti i u g po cd).columns = co := rfl

theorem Box.rows_mk (k cs sty sc t l sp co ro h ti i u g po cd) :
    (Box.mk k cs sty sc t l sp co ro h ti i u g po cd).rows = ro := rfl

theorem Box.style_mk (k cs sty sc t l sp co ro h ti i u g po cd) :
    (Box.mk k cs sty sc t l sp co ro h ti i u g po cd).style = sty := rfl

theorem element_dispatch_none (c : Content) (name : String)
    (attrs : List (String × String)) (style : Style) (children : List Node)
    (st : Status) (s : BState) (h : ¬ name ∈ specialNames) :
    element_dispatch c name attrs style children st s = none := by
  unfold element_dispatch
  split <;> simp_all [specialNames]

theorem applySpans_columns (b : Box) (attrs : List (String × String)) :
    (applySpans b attrs).columns =
      (match getProp attrs "colspan" with
       | none => b.columns
       | some v => if 100 < strtol v then 1 else strtol v) := by
  unfold applySpans
  cases hc : getProp attrs "colspan" <;> cases hr : getProp attrs "rowspan" <;>
    cases b <;> simp [Box.setSpans, Box.columns, Box.rows]

theorem applySpans_rows (b : Box) (attrs : List (String × String)) :
    (applySpans b attrs).rows =
      (match getProp attrs "rowspan" with
       | none => b.rows
       | some v => if 100 < strtol v then 1 else strtol v) := by
  unfold applySpans
  cases hc : getProp attrs "colspan" <;> cases hr : getProp attrs "rowspan" <;>
    cases b <;> simp [Box.setSpans, Box.columns, Box.rows]

/-- The generic element path for a table cell: the box appended to the
parent's closed children carries the code's effective spans. -/
theorem generic_tableCell_spans (c : Content) (name : String)
    (attrs : List (String × String)) (style : Style) (children : List Node)
    (ctx : Ctx) (st : Status) (s : BState)
    (hname : ¬ name ∈ specialNames)
    (hdisp : style.display = .tableCell)
    (hfloat : style.float = .noneF) :
    ((box_construct_element c name attrs style children ctx st s).1.done.getLast?).map
        Box.columns = some (colspanEff attrs) ∧
    ((box_construct_element c name attrs style children ctx st s).1.done.getLast?).map
        Box.rows = some (rowspanEff attrs) := by
  have hdn : ∀ st' s', element_dispatch c name attrs style children st' s' = none :=
    fun st' s' => element_dispatch_none c name attrs style children st' s' hname
  unfold box_construct_element
  simp only [hdisp, hdn]
  unfold element_place
  simp only [hdisp, hfloat]
  simp [box_map, box_create, Box.setKind, Ctx.addBlock,
    applySpans_columns, applySpans_rows, Box.setChildren, Box.columns_mk,
    Box.rows_mk, Box.kind_mk, Box.children_mk, colspanEff, rowspanEff]

/-- C2 (amended): for every table-cell element (generic path, resolved
display table-cell, not floated) with a `colspan` (resp. `rowspan`)
attribute, the constructed box's span count is the `strtol` value if it is
at most 100 and 1 otherwise — in particular `colspan="500"` yields an
effective span of 1, not a clamp to 100, and values ≤ 0 are kept as
parsed — and defaults to 1 when the attribute is absent. -/
theorem claim_C2_span_reset_amended (c : Content) (name : String)
    (attrs : List (String × String)) (style : Style) (children : List Node)
    (ctx : Ctx) (st : Status) (s : BState)
    (hname : ¬ name ∈ specialNames)
    (hdisp : style.display = .tableCell)
    (hfloat : style.float = .noneF) :
    ((box_construct_element c name attrs style children ctx st s).1.done.getLast?).map
        Box.columns = some (colspanEff attrs) ∧
    ((box_construct_element c name attrs style children ctx st s).1.done.getLast?).map
        Box.rows = some (rowspanEff attrs) :=
  generic_tableCell_spans c name attrs style children ctx st s hname hdisp hfloat

/-- C2 counterexample: a `<td colspan="500">` produces a box whose
effective column span is 1, not 100 — the claim's clamp to [1,100] does
not hold. -/
theorem claim_C2_span_reset_counterexample :
    ((box_construct_element contentTrivial "td" [("colspan", "500")]
        cellStyleTd [] ⟨[], none⟩ {} {}).1.done.getLast?).map Box.columns
      = some 1 ∧ (1 : Int) ≠ 100 := by
  constructor
  · have h := generic_tableCell_spans contentTrivial "td" [("colspan", "500")]
      cellStyleTd [] ⟨[], none⟩ {} {} (by decide) rfl rfl
    rw [h.1]
    decide
  · decide

/-- Witness for the amended C2 at `<td colspan="500" rowspan="0">`. -/
theorem claim_C2_span_reset_amended_witness :
    ((box_construct_element contentTrivial "td"
        [("colspan", "500"), ("rowspan", "0")] cellStyleTd [] ⟨[], none⟩ {}
        {}).1.done.getLast?).map Box.columns
      = some (colspanEff [("colspan", "500"), ("rowspan", "0")]) ∧
    ((box_construct_element contentTrivial "td"
        [("colspan", "500"), ("rowspan", "0")] cellStyleTd [] ⟨[], none⟩ {}
        {}).1.done.getLast?).map Box.rows
      = some (rowspanEff [("colspan", "500"), ("rowspan", "0")]) :=
  claim_C2_span_reset_amended contentTrivial "td"
    [("colspan", "500"), ("rowspan", "0")] cellStyleTd [] ⟨[], none⟩ {} {}
    (by decide) rfl rfl

theorem box_select_add_option_count (g : Gadget) (n : Node) :
    (box_select_add_option g n).items.length = g.items.length + 1 := by
  unfold box_select_add_option form_add_option
  simp

theorem select_scan_group_count (g : Gadget) (ns : List Node) :
    (select_scan_group g ns).items.length =
      g.items.length + countOptionsGroup ns := by
  induction ns generalizing g with
  | nil => simp [select_scan_group, countOptionsGroup]
  | cons n rest ih =>
    by_cases h : n.name = "option" <;>
      simp [select_scan_group, countOptionsGroup, h, ih,
        box_select_add_option_count] <;> omega

theorem select_scan_count (g : Gadget) (ns : List Node) :
    (select_scan g ns).items.length = g.items.length + countOptions ns := by
  induction ns generalizing g with
  | nil => simp [select_scan, countOptions]
  | cons n rest ih =>
    by_cases h : n.name = "option"
    · simp [select_scan, countOptions, h, ih, box_select_add_option_count]
      omega
    · by_cases h2 : n.name = "optgroup" <;>
        simp [select_scan, countOptions, h, h2, ih, select_scan_group_count] <;>
        omega

/-- `box_select` with zero collected options: no box, no error, status and
state untouched. -/
theorem box_select_empty (attrs : List (String × String))
    (children : List Node) (st : Status) (style : Style) (s : BState)
    (hopt : countOptions children = 0) :
    box_select attrs children st style s = (⟨none, false, false⟩, st, s) := by
  unfold box_select
  have hlen : (select_scan
      { kind := .select, multiple := hasProp attrs "multiple" }
      children).items.length = 0 := by
    rw [select_scan_count]
    simp [hopt]
  simp [hlen]

/-- C6: for every select element with zero option descendants (directly or
nested inside optgroup), construction produces no box and reports no
error — the handler returns no box with `memory_error` false, and the
parent's context (its child list) and the global state are unchanged, so
construction of the rest of the document continues. -/
theorem claim_C6_empty_select (c : Content) (attrs : List (String × String))
    (style : Style) (children : List Node) (ctx : Ctx) (st : Status)
    (s : BState) (hopt : countOptions children = 0) :
    box_select attrs children st style s = (⟨none, false, false⟩, st, s) ∧
    box_construct_element c "select" attrs style children ctx st s = (ctx, s) := by
  refine ⟨box_select_empty attrs children st style s hopt, ?_⟩
  unfold box_construct_element
  by_cases hd : style.display = .noneDisp
  · simp [hd]
  · have hsel : ∀ st' : Status,
        box_select attrs children st' style s = (⟨none, false, false⟩, st', s) :=
      fun st' => box_select_empty attrs children st' style s hopt
    simp [hd, element_dispatch, hsel]

/-- Witness for C6: a `<select>` whose only child is a text node. -/
theorem claim_C6_empty_select_witness :
    box_select [] [Node.text "x"] {} styleDefault {} =
      (⟨none, false, false⟩, {}, {}) ∧
    box_construct_element contentTrivial "select" [] styleDefault
      [Node.text "x"] ⟨[], none⟩ {} {} = (⟨[], none⟩, {}) :=
  claim_C6_empty_select contentTrivial [] styleDefault [Node.text "x"]
    ⟨[], none⟩ {} {} (by decide)

/-! ## C10: frames whose fetch is skipped -/

/-- C10: for every frame child of a frameset whose `src` attribute is
absent, fails to resolve, or resolves (case-insensitively) to the
document's own URL, the iteration still appends the `BOX_TABLE_CELL` with
its inner `BOX_BLOCK` object box to the current row — only the frame
fetch is skipped (the state is unchanged). -/
theorem claim_C10_frame_cell_kept (c : Content) (st : Status) (style : Style)
    (attrs : List (String × String)) (nstyle : Style) (nch : List Node)
    (rest : List Node) (rowFuel colFuel cols : Nat) (cur acc : List Box)
    (s : BState) (hcol : colFuel ≠ 0)
    (hskip : getProp attrs "src" = none ∨
      (∃ src, getProp attrs "src" = some src ∧
        c.urlJoin (stripC src) c.baseUrl = none) ∨
      (∃ src url, getProp attrs "src" = some src ∧
        c.urlJoin (stripC src) c.baseUrl = some url ∧
        eqIgnoreCase url c.baseUrl = true)) :
    frame_fetch c attrs s = s ∧
    frameset_iter c st style (Node.element "frame" attrs nstyle nch :: rest)
        rowFuel colFuel cols cur acc s =
      frameset_iter c st style rest rowFuel (colFuel - 1) cols
        (cur ++ [cellBox style [objectBox style]]) acc s := by
  have hff : frame_fetch c attrs s = s := by
    unfold frame_fetch
    rcases hskip with h | ⟨src, h1, h2⟩ | ⟨src, url, h1, h2, h3⟩
    · simp [h]
    · simp [h1, h2]
    · simp [h1, h2, h3]
  refine ⟨hff, ?_⟩
  conv_lhs => rw [frameset_iter]
  simp [hcol, isFrameNode, Node.name, Node.isElement, hff]

/-- Witness for C10: a `<frame>` with no `src` attribute. -/
theorem claim_C10_frame_cell_kept_witness :
    frame_fetch contentTrivial [] ({} : BState) = ({} : BState) ∧
    frameset_iter contentTrivial {} styleDefault
        [Node.element "frame" [] styleDefault []] 1 1 1 [] [] {} =
      frameset_iter contentTrivial {} styleDefault [] 1 0 1
        ([] ++ [cellBox styleDefault [objectBox styleDefault]]) [] {} :=
  claim_C10_frame_cell_kept contentTrivial {} styleDefault [] styleDefault []
    [] 1 1 1 [] [] {} (by decide) (Or.inl (by decide))

theorem brCountBoxes_append (l1 l2 : List Box) :
    brCountBoxes (l1 ++ l2) = brCountBoxes l1 + brCountBoxes l2 := by
  induction l1 with
  | nil => simp [brCountBoxes]
  | cons b rest ih => simp [brCountBoxes, ih]; omega

theorem brCountBox_mkIC (cs : List Box) :
    brCountBox (mkIC cs) = brCountBoxes cs := by
  simp [mkIC, brCountBox]

theorem brCountBox_preTextBox (style : Style) (href : Option String)
    (seg : List Char) :
    brCountBox (preTextBox style href seg) = 0 := by
  simp [preTextBox, box_create, Box.setStyleClone, Box.setTextLen, brCountBox,
    brCountBoxes]

theorem ctxBrCount_addInline (ctx : Ctx) (b : Box) :
    ctxBrCount (ctx.addInline b) = ctxBrCount ctx + brCountBox b := by
  obtain ⟨d, ic⟩ := ctx
  unfold ctxBrCount Ctx.addInline
  cases ic <;> simp [brCountBoxes_append, brCountBoxes] <;> omega

theorem ctxBrCount_flush (ctx : Ctx) :
    ctxBrCount ctx.flush = ctxBrCount ctx := by
  obtain ⟨d, ic⟩ := ctx
  unfold ctxBrCount Ctx.flush
  cases ic <;> simp [brCountBoxes_append, brCountBoxes, brCountBox_mkIC]

/-- The pre-mode loop appends no `BOX_BR` box. -/
theorem pre_lines_no_br (style : Style) (href : Option String) (ctx : Ctx)
    (l : List Char) :
    ctxBrCount (pre_lines style href ctx l) = ctxBrCount ctx := by
  unfold pre_lines
  split
  · simp [ctxBrCount_addInline, brCountBox_preTextBox]
  · rename_i r heq
    split
    · simp [ctxBrCount_flush, ctxBrCount_addInline, brCountBox_preTextBox]
    · rw [pre_lines_no_br style href _ r]
      simp [ctxBrCount_flush, ctxBrCount_addInline, brCountBox_preTextBox]
  · rename_i hd r hx heq
    split
    · simp [ctxBrCount_flush, ctxBrCount_addInline, brCountBox_preTextBox]
    · rw [pre_lines_no_br style href _ r]
      simp [ctxBrCount_flush, ctxBrCount_addInline, brCountBox_preTextBox]
termination_by l.length
decreasing_by
  all_goals
    rename_i heq2 hne2
    have hle := (List.dropWhile_sublist notCRLF (l := l)).length_le
    rw [heq2] at hle
    simp only [List.length_cons] at hle
    omega

/-- Starting with an empty container slot, the pre-mode loop turns each
closed segment into its own single-box inline container appended after
`done`, and leaves the final segment's box in the open slot (none after a
trailing boundary). -/
theorem pre_lines_parts (style : Style) (href : Option String)
    (done : List Box) (l : List Char) :
    pre_lines style href ⟨done, none⟩ l =
      ⟨done ++ (preParts l).1.map (fun seg => mkIC [preTextBox style href seg]),
       ((preParts l).2).map (fun seg => [preTextBox style href seg])⟩ := by
  unfold pre_lines preParts
  split
  · rename_i heq
    simp [Ctx.addInline, heq]
  · rename_i r heq
    simp only [Ctx.addInline, heq]
    split
    · simp [Ctx.flush]
    · simp only [Ctx.flush]
      rw [pre_lines_parts style href _ r]
      simp
  · rename_i hd r hx heq
    simp only [Ctx.addInline, heq]
    split
    · simp [Ctx.flush]
    · simp only [Ctx.flush]
      rw [pre_lines_parts style href _ r]
      simp
termination_by l.length
decreasing_by
  all_goals
    rename_i heq2 hne2
    have hle := (List.dropWhile_sublist notCRLF (l := l)).length_le
    rw [heq2] at hle
    simp only [List.length_cons] at hle
    omega

/-- C3 counterexample: the pre-mode text `"a\nb"` has one non-final line
boundary, yet the constructed boxes contain zero LineBreak (`BOX_BR`)
boxes — no LineBreak box is appended at line boundaries. -/
theorem claim_C3_pre_linebreak_counterexample :
    ctxBrCount (pre_lines styleDefault none ⟨[], none⟩ ("a\nb".data)) = 0 ∧
    (preParts ("a\nb".data)).1.length = 1 ∧
    (preParts ("a\nb".data)).2 = some ['b'] := by
  have hb : List.dropWhile notCRLF ['b'] = [] := by decide
  have ha : List.dropWhile notCRLF ['a', '\n', 'b'] = ['\n', 'b'] := by decide
  have h1 : preParts ['b'] = ([], some ['b']) := by
    unfold preParts
    split
    · decide
    · rename_i r heq
      rw [hb] at heq
      simp at heq
    · rename_i hd0 r hx heq
      rw [hb] at heq
      simp at heq
  have h2 : preParts ['a', '\n', 'b'] = ([['a']], some ['b']) := by
    unfold preParts
    split
    · rename_i heq
      rw [ha] at heq
      simp at heq
    · rename_i r heq
      rw [ha] at heq
      injection heq with hh ht
      exact absurd hh (by decide)
    · rename_i hd0 r hx heq
      rw [ha] at heq
      injection heq with hh ht
      subst ht
      simp [h1]
      decide
  have hd : "a\nb".data = ['a', '\n', 'b'] := rfl
  refine ⟨?_, ?_, ?_⟩
  · rw [pre_lines_no_br]
    rfl
  · rw [hd, h2]
    rfl
  · rw [hd, h2]

/-- C3 (amended): for every text node under Pre/PreLine/PreWrap
white-space, the text (after NBSP conversion and text-transform) is split
on CR, LF, or CRLF boundaries; each segment yields a text box (an empty
segment yields a zero-length box); no LineBreak box is appended — instead,
after every line boundary the inline container slot is reset to empty, so
each closed segment ends up as its own single-box inline container and the
final segment (when the text does not end at a boundary) stays in the open
container. -/
theorem claim_C3_pre_split_amended :
    (∀ (style : Style) (href : Option String) (done : List Box) (l : List Char),
      pre_lines style href ⟨done, none⟩ l =
        ⟨done ++ (preParts l).1.map (fun seg => mkIC [preTextBox style href seg]),
         ((preParts l).2).map (fun seg => [preTextBox style href seg])⟩) ∧
    (∀ (style : Style) (href : Option String) (ctx : Ctx) (l : List Char),
      ctxBrCount (pre_lines style href ctx l) = ctxBrCount ctx) ∧
    (∀ (pstyle : Style) (st : Status) (content : String) (ctx : Ctx),
      (pstyle.whiteSpace = .pre ∨ pstyle.whiteSpace = .preLine ∨
        pstyle.whiteSpace = .preWrap) →
      box_construct_text pstyle st content ctx =
        pre_lines pstyle st.href ctx
          (if pstyle.textTransform ≠ .noneT
           then box_text_transform (cnv2nbspL content.data)
             (cnv2nbspL content.data).length pstyle.textTransform
           else cnv2nbspL content.data)) := by
  refine ⟨pre_lines_parts, pre_lines_no_br, ?_⟩
  intro pstyle st content ctx hws
  unfold box_construct_text
  rcases hws with h | h | h <;> simp [h]

/-- Witness for the amended C3: a pre text node goes through the line
loop. -/
theorem claim_C3_pre_split_amended_witness :
    box_construct_text preStyle {} "x" ⟨[], none⟩ =
      pre_lines preStyle ({} : Status).href ⟨[], none⟩
        (if preStyle.textTransform ≠ .noneT
         then box_text_transform (cnv2nbspL "x".data)
           (cnv2nbspL "x".data).length preStyle.textTransform
         else cnv2nbspL "x".data) :=
  claim_C3_pre_split_amended.2.2 preStyle {} "x" ⟨[], none⟩ (Or.inl rfl)

/-! ## C4: lone-space text nodes -/

theorem setLastSpace_length (cs : List Box) :
    (setLastSpace cs).length = cs.length := by
  induction cs with
  | nil => rfl
  | cons b rest ih =>
    cases rest with
    | nil => rfl
    | cons b2 rest2 =>
      simp only [setLastSpace, List.length_cons] at *
      omega

/-- C4: for every text node under Normal or NoWrap white-space whose
whitespace-squashed content is exactly one space, construction produces
zero boxes for that node (the parent's closed children and the container's
box count are unchanged); if a current inline container exists, the
trailing-space flag of its last child box is set instead; with no open
container nothing changes at all — the text is dropped. -/
theorem claim_C4_lone_space_text (pstyle : Style) (st : Status)
    (content : String) (ctx : Ctx)
    (hws : pstyle.whiteSpace = .normal ∨ pstyle.whiteSpace = .nowrap)
    (hsq : squashWS content.data = [' ']) :
    (box_construct_text pstyle st content ctx).done = ctx.done ∧
    (ctx.ic = none → box_construct_text pstyle st content ctx = ctx) ∧
    (∀ cs, ctx.ic = some cs →
      (box_construct_text pstyle st content ctx).ic = some (setLastSpace cs) ∧
      (setLastSpace cs).length = cs.length) := by
  cases hic : ctx.ic with
  | none =>
    unfold box_construct_text
    rcases hws with h | h <;> simp [h, hsq, hic]
  | some cs =>
    unfold box_construct_text
    rcases hws with h | h <;> simp [h, hsq, hic, setLastSpace_length]

/-- Witness for C4: the text `" "` with an open inline container holding
one box. -/
theorem claim_C4_lone_space_text_witness :
    (box_construct_text styleDefault {} " "
        ⟨[], some [box_create none none none none]⟩).done = [] ∧
    ((⟨[], some [box_create none none none none]⟩ : Ctx).ic = none →
      box_construct_text styleDefault {} " "
        ⟨[], some [box_create none none none none]⟩ =
        ⟨[], some [box_create none none none none]⟩) ∧
    (∀ cs, (⟨[], some [box_create none none none none]⟩ : Ctx).ic = some cs →
      (box_construct_text styleDefault {} " "
        ⟨[], some [box_create none none none none]⟩).ic =
        some (setLastSpace cs) ∧
      (setLastSpace cs).length = cs.length) :=
  claim_C4_lone_space_text styleDefault {} " "
    ⟨[], some [box_create none none none none]⟩ (Or.inl rfl)
    (by simp [squashWS, isSpaceC])

theorem wfBox_mk (k cs sty sc t l sp co ro h ti i u g po cd) :
    wfBox (Box.mk k cs sty sc t l sp co ro h ti i u g po cd) = wfKids k cs :=
  rfl

theorem wfKids_append (k : BoxKind) (l1 l2 : List Box) :
    wfKids k (l1 ++ l2) = (wfKids k l1 && wfKids k l2) := by
  induction l1 with
  | nil => simp [wfKids]
  | cons b rest ih =>
    simp [wfKids, ih, Bool.and_assoc]

theorem wfBox_setSpace (b : Box) : wfBox b.setSpace = wfBox b := by
  cases b; rfl

theorem kind_setSpace (b : Box) : b.setSpace.kind = b.kind := by
  cases b; rfl

theorem wfBox_setTextLen (b : Box) (t : Option String) (l : Nat) :
    wfBox (b.setTextLen t l) = wfBox b := by
  cases b; rfl

theorem kind_setTextLen (b : Box) (t : Option String) (l : Nat) :
    (b.setTextLen t l).kind = b.kind := by
  cases b; rfl

theorem wfBox_setStyleClone (b : Box) : wfBox b.setStyleClone = wfBox b := by
  cases b; rfl

theorem kind_setStyleClone (b : Box) : b.setStyleClone.kind = b.kind := by
  cases b; rfl

theorem wfBox_setGadget (b : Box) (g : Option Gadget) :
    wfBox (b.setGadget g) = wfBox b := by
  cases b; rfl

theorem kind_setGadget (b : Box) (g : Option Gadget) :
    (b.setGadget g).kind = b.kind := by
  cases b; rfl

theorem children_setGadget (b : Box) (g : Option Gadget) :
    (b.setGadget g).children = b.children := by
  cases b; rfl

theorem wfBox_setUsemap (b : Box) (u : Option String) :
    wfBox (b.setUsemap u) = wfBox b := by
  cases b; rfl

theorem kind_setUsemap (b : Box) (u : Option String) :
    (b.setUsemap u).kind = b.kind := by
  cases b; rfl

theorem wfBox_setObjectParams (b : Box) (po : Option ObjectParams) :
    wfBox (b.setObjectParams po) = wfBox b := by
  cases b; rfl

theorem kind_setObjectParams (b : Box) (po : Option ObjectParams) :
    (b.setObjectParams po).kind = b.kind := by
  cases b; rfl

theorem wfBox_setCol (b : Box) (cd : List ColDesc) :
    wfBox (b.setCol cd) = wfBox b := by
  cases b; rfl

theorem kind_setCol (b : Box) (cd : List ColDesc) :
    (b.setCol cd).kind = b.kind := by
  cases b; rfl

theorem wfBox_setSpans (b : Box) (co ro : Int) :
    wfBox (b.setSpans co ro) = wfBox b := by
  cases b; rfl

theorem kind_setSpans (b : Box) (co ro : Int) :
    (b.setSpans co ro).kind = b.kind := by
  cases b; rfl

theorem wfBox_setKind (b : Box) (k : BoxKind) :
    wfBox (b.setKind k) = wfKids k b.children := by
  cases b; rfl

theorem kind_setKind (b : Box) (k : BoxKind) : (b.setKind k).kind = k := by
  cases b; rfl

theorem children_setKind (b : Box) (k : BoxKind) :
    (b.setKind k).children = b.children := by
  cases b; rfl

theorem wfBox_setChildren (b : Box) (cs : List Box) :
    wfBox (b.setChildren cs) = wfKids b.kind cs := by
  cases b; rfl

theorem kind_setChildren (b : Box) (cs : List Box) :
    (b.setChildren cs).kind = b.kind := by
  cases b; rfl

theorem children_setChildren (b : Box) (cs : List Box) :
    (b.setChildren cs).children = cs := by
  cases b; rfl

theorem wfBox_applySpans (b : Box) (attrs : List (String × String)) :
    wfBox (applySpans b attrs) = wfBox b := by
  unfold applySpans
  cases getProp attrs "colspan" <;> cases getProp attrs "rowspan" <;>
    simp [wfBox_setSpans]

theorem kind_applySpans (b : Box) (attrs : List (String × String)) :
    (applySpans b attrs).kind = b.kind := by
  unfold applySpans
  cases getProp attrs "colspan" <;> cases getProp attrs "rowspan" <;>
    simp [kind_setSpans]

theorem wfBox_box_create (sty : Option Style) (h t i : Option String) :
    wfBox (box_create sty h t i) = true := rfl

theorem kind_box_create (sty : Option Style) (h t i : Option String) :
    (box_create sty h t i).kind = .inlineBox := rfl

theorem children_box_create (sty : Option Style) (h t i : Option String) :
    (box_create sty h t i).children = [] := rfl

theorem box_map_ne_ic (d : Display) : box_map d ≠ .inlineContainer := by
  cases d <;> simp [box_map]

theorem parentOk_nonIC (k k' ck : BoxKind) (h : k ≠ .inlineContainer)
    (h' : k' ≠ .inlineContainer) : parentOk k ck = parentOk k' ck := by
  unfold parentOk
  simp [h, h']

theorem wfKids_nonIC (k k' : BoxKind) (cs : List Box)
    (h : k ≠ .inlineContainer) (h' : k' ≠ .inlineContainer) :
    wfKids k cs = wfKids k' cs := by
  induction cs with
  | nil => simp [wfKids]
  | cons b rest ih =>
    simp [wfKids, ih, parentOk_nonIC k k' b.kind h h']

theorem parentOk_IC_of_ne (ck : BoxKind) (h : ¬(ck = .block)) :
    parentOk .inlineContainer ck = true := by
  cases ck <;> simp_all [parentOk]

theorem parentOk_of_done (k ck : BoxKind) (hk : ¬(k = .inlineContainer))
    (h1 : ¬(ck = .inlineBox)) (h2 : ¬(ck = .br)) : parentOk k ck = true := by
  simp [parentOk, h1, h2, hk]

theorem wfKids_of_all_icOk (cs : List Box) (h : cs.all icOk = true) :
    wfKids .inlineContainer cs = true := by
  induction cs with
  | nil => rfl
  | cons b rest ih =>
    simp only [List.all_cons, Bool.and_eq_true] at h
    obtain ⟨hb, hrest⟩ := h
    simp only [icOk, Bool.and_eq_true, decide_eq_true_eq] at hb
    simp [wfKids, parentOk_IC_of_ne b.kind hb.2, hb.1, ih hrest]

theorem wfKids_of_all_doneOk (k : BoxKind) (l : List Box)
    (hk : ¬(k = .inlineContainer)) (h : l.all doneOk = true) :
    wfKids k l = true := by
  induction l with
  | nil => rfl
  | cons b rest ih =>
    simp only [List.all_cons, Bool.and_eq_true] at h
    obtain ⟨hb, hrest⟩ := h
    simp only [doneOk, Bool.and_eq_true, decide_eq_true_eq] at hb
    simp [wfKids, parentOk_of_done k b.kind hk hb.1.2 hb.2, hb.1.1, ih hrest]

theorem kind_mkIC (cs : List Box) : (mkIC cs).kind = .inlineContainer := rfl

theorem wfBox_mkIC_of_icOk (cs : List Box) (h : cs.all icOk = true) :
    wfBox (mkIC cs) = true := by
  rw [mkIC, wfBox_mk]
  exact wfKids_of_all_icOk cs h

theorem doneOk_mkIC (cs : List Box) (h : cs.all icOk = true) :
    doneOk (mkIC cs) = true := by
  have hwf := wfBox_mkIC_of_icOk cs h
  simp [doneOk, hwf, kind_mkIC]

theorem ctxOK_addInline (ctx : Ctx) (b : Box) (h : ctxOK ctx = true)
    (hb : icOk b = true) : ctxOK (ctx.addInline b) = true := by
  obtain ⟨d, ic⟩ := ctx
  unfold ctxOK Ctx.addInline at *
  cases ic <;> simp_all

theorem ctxOK_flush (ctx : Ctx) (h : ctxOK ctx = true) :
    ctxOK ctx.flush = true := by
  obtain ⟨d, ic⟩ := ctx
  unfold ctxOK Ctx.flush at *
  cases ic with
  | none => simpa using h
  | some cs =>
    simp only [Bool.and_eq_true] at h
    simp [List.all_append, h.1, doneOk_mkIC cs (by simpa using h.2)]

theorem ctxOK_addBlock (ctx : Ctx) (b : Box) (h : ctxOK ctx = true)
    (hb : doneOk b = true) : ctxOK (ctx.addBlock b) = true := by
  have hf := ctxOK_flush ctx h
  unfold ctxOK at hf
  simp only [Bool.and_eq_true] at hf
  unfold Ctx.addBlock ctxOK
  simp [List.all_append, hf.1, hb]

theorem finalize_all_doneOk (ctx : Ctx) (h : ctxOK ctx = true) :
    ctx.finalize.all doneOk = true := by
  obtain ⟨d, ic⟩ := ctx
  unfold ctxOK Ctx.finalize at *
  cases ic with
  | none => simpa using h
  | some cs =>
    simp only [Bool.and_eq_true] at h
    simp [List.all_append, h.1, doneOk_mkIC cs (by simpa using h.2)]

theorem wfKids_finalize (k : BoxKind) (ctx : Ctx) (h : ctxOK ctx = true)
    (hk : ¬(k = .inlineContainer)) : wfKids k ctx.finalize = true :=
  wfKids_of_all_doneOk k ctx.finalize hk (finalize_all_doneOk ctx h)

theorem icOk_setSpace (b : Box) : icOk b.setSpace = icOk b := by
  simp [icOk, wfBox_setSpace, kind_setSpace]

theorem all_icOk_setLastSpace (cs : List Box) :
    (setLastSpace cs).all icOk = cs.all icOk := by
  induction cs with
  | nil => rfl
  | cons b rest ih =>
    cases rest with
    | nil => simp [setLastSpace, icOk_setSpace]
    | cons b2 rest2 => simp [setLastSpace, ih]

theorem icOk_preTextBox (style : Style) (href : Option String)
    (seg : List Char) : icOk (preTextBox style href seg) = true := by
  simp [icOk, preTextBox, wfBox_setTextLen, wfBox_setStyleClone,
    wfBox_box_create, kind_setTextLen, kind_setStyleClone, kind_box_create]

/-- The pre-mode loop preserves the context invariant. -/
theorem pre_lines_ok (style : Style) (href : Option String) (ctx : Ctx)
    (l : List Char) (h : ctxOK ctx = true) :
    ctxOK (pre_lines style href ctx l) = true := by
  unfold pre_lines
  split
  · exact ctxOK_addInline _ _ h (icOk_preTextBox style href _)
  · rename_i r heq
    split
    · exact ctxOK_flush _ (ctxOK_addInline _ _ h (icOk_preTextBox style href _))
    · exact pre_lines_ok style href _ r
        (ctxOK_flush _ (ctxOK_addInline _ _ h (icOk_preTextBox style href _)))
  · rename_i hd0 r hx heq
    split
    · exact ctxOK_flush _ (ctxOK_addInline _ _ h (icOk_preTextBox style href _))
    · exact pre_lines_ok style href _ r
        (ctxOK_flush _ (ctxOK_addInline _ _ h (icOk_preTextBox style href _)))
termination_by l.length
decreasing_by
  all_goals
    rename_i heq2 hne2
    have hle := (List.dropWhile_sublist notCRLF (l := l)).length_le
    rw [heq2] at hle
    simp only [List.length_cons] at hle
    omega

theorem icOk_setTextLen (b : Box) (t : Option String) (l : Nat) :
    icOk (b.setTextLen t l) = icOk b := by
  simp [icOk, wfBox_setTextLen, kind_setTextLen]

theorem icOk_normalTextPieces (pstyle : Style) (href : Option String)
    (text : List Char) :
    icOk (normalTextPieces pstyle href text).2 = true := by
  unfold normalTextPieces
  dsimp only
  split <;>
    simp [icOk, wfBox_setSpace, wfBox_setTextLen, wfBox_setStyleClone,
      wfBox_box_create, kind_setSpace, kind_setTextLen, kind_setStyleClone,
      kind_box_create]

/-- The text-node constructor preserves the context invariant. -/
theorem box_construct_text_ok (pstyle : Style) (st : Status)
    (content : String) (ctx : Ctx) (h : ctxOK ctx = true) :
    ctxOK (box_construct_text pstyle st content ctx) = true := by
  unfold box_construct_text
  by_cases hws : pstyle.whiteSpace = .normal ∨ pstyle.whiteSpace = .nowrap
  · simp only [if_pos hws]
    by_cases hsq : squashWS content.data = [' ']
    · simp only [hsq]
      obtain ⟨d, ic⟩ := ctx
      unfold ctxOK at h ⊢
      simp only [Bool.and_eq_true] at h
      cases ic with
      | none => simp_all
      | some cs => simp_all [all_icOk_setLastSpace]
    · simp only [if_neg hsq]
      have h1 := icOk_normalTextPieces pstyle st.href (squashWS content.data)
      obtain ⟨d, ic⟩ := ctx
      unfold ctxOK at h ⊢
      simp only [Bool.and_eq_true] at h
      cases ic with
      | none =>
        split <;>
          simp_all [List.all_append, setLastSpace, icOk_setTextLen]
      | some cs =>
        split <;>
          simp_all [List.all_append, all_icOk_setLastSpace, icOk_setTextLen]
  · simp only [if_neg hws]
    exact pre_lines_ok pstyle st.href ctx _ h

theorem box_a_resOk (attrs : List (String × String)) (st : Status)
    (style : Style) : boxResOk (box_a attrs st style).1 := by
  intro b hb
  unfold box_a at hb
  simp only [Option.some.injEq] at hb
  subst hb
  exact ⟨wfBox_box_create _ _ _ _, by simp [kind_box_create],
    fun _ => children_box_create _ _ _ _, fun _ => children_box_create _ _ _ _⟩

theorem box_body_resOk (st : Status) (style : Style) (s : BState) :
    boxResOk (box_body st style s).1 := by
  intro b hb
  unfold box_body at hb
  simp only [Option.some.injEq] at hb
  subst hb
  exact ⟨wfBox_box_create _ _ _ _, by simp [kind_box_create],
    fun _ => children_box_create _ _ _ _, fun _ => children_box_create _ _ _ _⟩

theorem box_br_resOk (st : Status) (style : Style) :
    boxResOk (box_br st style).1 := by
  intro b hb
  unfold box_br at hb
  simp only [Option.some.injEq] at hb
  subst hb
  refine ⟨?_, ?_, ?_, ?_⟩
  · rw [wfBox_setKind]
    simp [children_box_create, wfKids]
  · simp [kind_setKind]
  · simp [kind_setKind]
  · simp [box_br]

theorem box_form_resOk (attrs : List (String × String)) (st : Status)
    (style : Style) (s : BState) : boxResOk (box_form attrs st style s).1 := by
  intro b hb
  unfold box_form at hb
  have hbb : b = box_create (some style) st.href st.title st.id := by
    cases hact : getProp attrs "action" with
    | none =>
      simp only [hact, Option.some.injEq] at hb
      exact hb.symm
    | some a =>
      simp only [hact, Option.some.injEq] at hb
      exact hb.symm
  subst hbb
  exact ⟨wfBox_box_create _ _ _ _, by simp [kind_box_create],
    fun _ => children_box_create _ _ _ _, fun _ => children_box_create _ _ _ _⟩

theorem imageBox_kind (attrs : List (String × String)) (st : Status)
    (style : Style) : (imageBox attrs st style).kind = .inlineBox := by
  unfold imageBox
  cases getProp attrs "alt" <;> cases getProp attrs "usemap" <;>
    simp [kind_setTextLen, kind_setUsemap, kind_box_create]

theorem imageBox_children (attrs : List (String × String)) (st : Status)
    (style : Style) : (imageBox attrs st style).children = [] := by
  unfold imageBox
  cases getProp attrs "alt" <;> cases getProp attrs "usemap" <;>
    simp [Box.setTextLen, Box.setUsemap, box_create, Box.children]

theorem imageBox_wf (attrs : List (String × String)) (st : Status)
    (style : Style) : wfBox (imageBox attrs st style) = true := by
  unfold imageBox
  cases getProp attrs "alt" <;> cases getProp attrs "usemap" <;>
    simp [wfBox_setTextLen, wfBox_setUsemap, wfBox_box_create]

theorem box_image_resOk (c : Content) (attrs : List (String × String))
    (st : Status) (style : Style) (s : BState) :
    boxResOk (box_image c attrs st style s).1 := by
  intro b hb
  unfold box_image at hb
  simp only [Option.some.injEq] at hb
  subst hb
  exact ⟨imageBox_wf _ _ _, by simp [imageBox_kind],
    fun _ => imageBox_children _ _ _, fun _ => imageBox_children _ _ _⟩

theorem children_setSpace (b : Box) : b.setSpace.children = b.children := by
  cases b; rfl

theorem children_setTextLen (b : Box) (t : Option String) (l : Nat) :
    (b.setTextLen t l).children = b.children := by
  cases b; rfl

theorem children_setStyleClone (b : Box) :
    b.setStyleClone.children = b.children := by
  cases b; rfl

theorem children_setUsemap (b : Box) (u : Option String) :
    (b.setUsemap u).children = b.children := by
  cases b; rfl

theorem children_setObjectParams (b : Box) (po : Option ObjectParams) :
    (b.setObjectParams po).children = b.children := by
  cases b; rfl

theorem children_setSpans (b : Box) (co ro : Int) :
    (b.setSpans co ro).children = b.children := by
  cases b; rfl

theorem children_setCol (b : Box) (cd : List ColDesc) :
    (b.setCol cd).children = b.children := by
  cases b; rfl

theorem children_applySpans (b : Box) (attrs : List (String × String)) :
    (applySpans b attrs).children = b.children := by
  unfold applySpans
  cases getProp attrs "colspan" <;> cases getProp attrs "rowspan" <;>
    simp [children_setSpans]

theorem box_object_resOk (c : Content) (attrs : List (String × String))
    (children : List Node) (st : Status) (style : Style) (s : BState) :
    boxResOk (box_object c attrs children st style s).1 := by
  intro b hb
  simp only [box_object] at hb
  cases hum : getProp attrs "usemap" <;> simp only [hum] at hb <;>
    split at hb <;>
    simp only [Option.some.injEq] at hb <;> subst hb <;>
    exact ⟨by simp [wfBox_setObjectParams, wfBox_setUsemap, wfBox_box_create],
      by simp [kind_setObjectParams, kind_setUsemap, kind_box_create],
      fun _ => by simp [children_setObjectParams, children_setUsemap,
        children_box_create],
      fun _ => by simp [children_setObjectParams, children_setUsemap,
        children_box_create]⟩

theorem box_embed_resOk (c : Content) (attrs : List (String × String))
    (st : Status) (style : Style) (s : BState) :
    boxResOk (box_embed c attrs st style s).1 := by
  intro b hb
  simp only [box_embed, Option.some.injEq] at hb
  subst hb
  exact ⟨by simp [wfBox_setObjectParams, wfBox_box_create],
    by simp [kind_setObjectParams, kind_box_create],
    fun _ => by simp [children_setObjectParams, children_box_create],
    fun _ => by simp [children_setObjectParams, children_box_create]⟩

theorem box_iframe_resOk (c : Content) (attrs : List (String × String))
    (st : Status) (style : Style) (s : BState) :
    boxResOk (box_iframe c attrs st style s).1 := by
  intro b hb
  simp only [box_iframe, Option.some.injEq] at hb
  subst hb
  exact ⟨by simp [wfBox_setObjectParams, wfBox_box_create],
    by simp [kind_setObjectParams, kind_box_create],
    fun _ => by simp [children_setObjectParams, children_box_create],
    fun _ => by simp [children_setObjectParams, children_box_create]⟩

/-- An inline container can sit under any parent kind. -/
theorem parentOk_IC_child (k : BoxKind) :
    parentOk k .inlineContainer = true := by
  cases k <;> simp [parentOk]

theorem kind_widgetTextIC (style : Style) (txt : String) :
    (widgetTextIC style txt).kind = .inlineContainer := rfl

theorem wfBox_widgetTextIC (style : Style) (txt : String) :
    wfBox (widgetTextIC style txt) = true := by
  unfold widgetTextIC
  apply wfBox_mkIC_of_icOk
  simp [icOk, wfBox_setTextLen, wfBox_setStyleClone, wfBox_box_create,
    kind_setTextLen, kind_setStyleClone, kind_box_create]

theorem wfKids_single_widget (k : BoxKind) (style : Style) (txt : String) :
    wfKids k [widgetTextIC style txt] = true := by
  simp [wfKids, kind_widgetTextIC, parentOk_IC_child, wfBox_widgetTextIC]

theorem boxOk_setGadget (b : Box) (g : Option Gadget) (h : boxOk b) :
    boxOk (b.setGadget g) := by
  unfold boxOk at *
  rw [wfBox_setGadget, kind_setGadget, children_setGadget]
  exact h

theorem boxOk_box_create (sty : Option Style) (h t i : Option String) :
    boxOk (box_create sty h t i) :=
  ⟨wfBox_box_create sty h t i, by simp [kind_box_create],
    fun _ => children_box_create sty h t i⟩

/-- An inline-block box whose only child is a widget text container. -/
theorem boxOk_widget_block (b0 : Box) (style : Style) (txt : String)
    (hk : b0.kind = .inlineBlock) :
    boxOk (b0.setChildren [widgetTextIC style txt]) := by
  unfold boxOk
  rw [wfBox_setChildren, kind_setChildren, children_setChildren, hk]
  exact ⟨wfKids_single_widget _ _ _, by simp, by simp⟩

theorem boxOk_ib_create (style : Style) (i : Option String) :
    boxOk ((box_create (some style) none none i).setKind .inlineBlock) := by
  unfold boxOk
  rw [wfBox_setKind, kind_setKind, children_setKind]
  refine ⟨?_, by simp, by simp⟩
  simp [children_box_create, wfKids]

theorem boxOk_box_input_text (attrs : List (String × String)) (st : Status)
    (style : Style) (pw : Bool) : boxOk (box_input_text attrs st style pw) := by
  unfold box_input_text
  dsimp only
  exact boxOk_setGadget _ _ (boxOk_widget_block _ style _ (kind_setKind _ _))

theorem box_select_resOk (attrs : List (String × String))
    (children : List Node) (st : Status) (style : Style) (s : BState) :
    boxResOk (box_select attrs children st style s).1 := by
  have hcc : (box_select attrs children st style s).1.convertChildren
      = false := by
    simp only [box_select]
    split <;> rfl
  intro b hb
  refine ⟨?_, ?_, ?_, fun hx => Bool.noConfusion (hcc.symm.trans hx)⟩ <;>
    [skip; skip; skip] <;>
    · simp only [box_select] at hb
      split at hb
      · simp at hb
      · simp only [Option.some.injEq] at hb
        subst hb
        first
        | (rw [wfBox_setGadget, wfBox_setChildren, kind_setKind]
           exact wfKids_single_widget _ _ _)
        | simp [kind_setGadget, kind_setChildren, kind_setKind]

theorem box_button_box_kind (attrs : List (String × String)) (st : Status)
    (style : Style) (s : BState) (b : Box)
    (h : (box_button attrs st style s).1.box = some b) :
    b.kind = .inlineBlock := by
  simp only [box_button] at h
  repeat' split at h
  all_goals
    simp only [Option.some.injEq] at h
    subst h
    simp [kind_setGadget, kind_setKind]

theorem box_button_resOk (attrs : List (String × String)) (st : Status)
    (style : Style) (s : BState) :
    boxResOk (box_button attrs st style s).1 := by
  intro b hb
  simp only [box_button] at hb
  repeat' split at hb
  all_goals
    simp only [Option.some.injEq] at hb
    subst hb
    refine ⟨?_, ?_, ?_, fun _ => ?_⟩ <;>
      simp [wfBox_setGadget, wfBox_setKind, kind_setGadget, kind_setKind,
        children_setGadget, children_setKind, children_box_create, wfKids]

theorem box_input_branch_ok (c : Content) (attrs : List (String × String))
    (st : Status) (style : Style) (s : BState) :
    ∀ b, (box_input_branch c attrs st style s).1 = some b → boxOk b := by
  intro b hb
  unfold box_input_branch at hb
  cases ht : getProp attrs "type" with
  | none =>
    simp only [ht, Option.some.injEq] at hb
    subst hb
    exact boxOk_box_input_text attrs st style false
  | some t =>
    simp only [ht] at hb
    cases h1 : eqIgnoreCase t "password" with
    | true =>
      simp only [h1, if_true, Option.some.injEq] at hb
      subst hb
      exact boxOk_box_input_text attrs st style true
    | false =>
    simp only [h1, Bool.false_eq_true, if_false] at hb
    cases h2 : eqIgnoreCase t "file" with
    | true =>
      simp only [h2, if_true, Option.some.injEq] at hb
      subst hb
      exact boxOk_setGadget _ _ (boxOk_ib_create style st.id)
    | false =>
    simp only [h2, Bool.false_eq_true, if_false] at hb
    cases h3 : eqIgnoreCase t "hidden" with
    | true => simp only [h3, if_true] at hb; simp at hb
    | false =>
    simp only [h3, Bool.false_eq_true, if_false] at hb
    by_cases h4 : eqIgnoreCase t "checkbox" = true ∨ eqIgnoreCase t "radio" = true
    · simp only [if_pos h4, Option.some.injEq] at hb
      subst hb
      exact boxOk_setGadget _ _ (boxOk_box_create _ _ _ _)
    · simp only [if_neg h4] at hb
      by_cases h5 : eqIgnoreCase t "submit" = true ∨ eqIgnoreCase t "reset" = true
      · simp only [if_pos h5] at hb
        cases hrb : (box_button attrs st style s).1.box with
        | none => simp only [hrb] at hb; simp at hb
        | some bb =>
          simp only [hrb, Option.some.injEq] at hb
          subst hb
          exact boxOk_widget_block bb style _
            (box_button_box_kind attrs st style s bb hrb)
      · simp only [if_neg h5] at hb
        cases h6 : eqIgnoreCase t "button" with
        | true =>
          simp only [h6, if_true] at hb
          cases hrb : (box_button attrs st style s).1.box with
          | none => simp only [hrb] at hb; simp at hb
          | some bb =>
            simp only [hrb, Option.some.injEq] at hb
            subst hb
            exact boxOk_widget_block bb style _
              (box_button_box_kind attrs st style s bb hrb)
        | false =>
        simp only [h6, Bool.false_eq_true, if_false] at hb
        cases h7 : eqIgnoreCase t "image" with
        | true =>
          simp only [h7, if_true, Option.some.injEq] at hb
          subst hb
          exact boxOk_setGadget _ _ (boxOk_box_create _ _ _ _)
        | false =>
          simp only [h7, Bool.false_eq_true, if_false, Option.some.injEq] at hb
          subst hb
          exact boxOk_box_input_text attrs st style false

theorem box_input_resOk (c : Content) (attrs : List (String × String))
    (st : Status) (style : Style) (s : BState) :
    boxResOk (box_input c attrs st style s).1 := by
  have hcc : (box_input c attrs st style s).1.convertChildren = false := by
    simp only [box_input]
    split <;> rfl
  intro b hb
  have hok : boxOk b := by
    simp only [box_input] at hb
    split at hb
    · simp only at hb
      cases ha : (box_input_branch c attrs st style s).1 with
      | none => rw [ha] at hb; simp at hb
      | some a =>
        rw [ha] at hb
        simp only [Option.map_some', Option.some.injEq] at hb
        subst hb
        exact boxOk_setGadget _ _ (box_input_branch_ok c attrs st style s a ha)
    · simp only at hb
      exact box_input_branch_ok c attrs st style s b hb
  exact ⟨hok.1, hok.2.1, hok.2.2,
    fun hx => Bool.noConfusion (hcc.symm.trans hx)⟩

theorem icOk_taInline (style : Style) (seg : List Char) :
    icOk (taInline style seg) = true := by
  simp [icOk, taInline, wfBox_setTextLen, wfBox_setStyleClone,
    wfBox_box_create, kind_setTextLen, kind_setStyleClone, kind_box_create]

theorem icOk_taBr (style : Style) : icOk (taBr style) = true := by
  unfold icOk taBr
  rw [wfBox_setStyleClone, wfBox_setKind, kind_setStyleClone, kind_setKind]
  simp [children_box_create, wfKids]

/-- Every box the textarea content loop produces may sit in an inline
container. -/
theorem textarea_lines_icOk (style : Style) (l : List Char) :
    (textarea_lines style l).all icOk = true := by
  unfold textarea_lines
  split
  · simp [icOk_taInline]
  · rename_i r heq
    simp only [List.all_cons, Bool.and_eq_true]
    exact ⟨icOk_taInline style _, icOk_taBr style,
      by simpa using textarea_lines_icOk style r⟩
  · rename_i hd0 r hx heq
    simp only [List.all_cons, Bool.and_eq_true]
    exact ⟨icOk_taInline style _, icOk_taBr style,
      by simpa using textarea_lines_icOk style r⟩
termination_by l.length
decreasing_by
  all_goals
    rename_i heq2 hne2
    have hle := (List.dropWhile_sublist notCRLF (l := l)).length_le
    rw [heq2] at hle
    simp only [List.length_cons] at hle
    omega

theorem box_textarea_resOk (attrs : List (String × String))
    (children : List Node) (st : Status) (style : Style) (s : BState) :
    boxResOk (box_textarea attrs children st style s).1 := by
  have hcc : (box_textarea attrs children st style s).1.convertChildren
      = false := rfl
  intro b hb
  simp only [box_textarea, Option.some.injEq] at hb
  subst hb
  refine ⟨?_, ?_, ?_, fun hx => Bool.noConfusion (hcc.symm.trans hx)⟩
  · rw [wfBox_setGadget, wfBox_setChildren, kind_setKind]
    simp [wfKids, kind_mkIC, parentOk_IC_child,
      wfBox_mkIC_of_icOk _ (textarea_lines_icOk style _)]
  · simp [kind_setGadget, kind_setChildren, kind_setKind]
  · simp [kind_setGadget, kind_setChildren, kind_setKind]

theorem kind_objectBox (style : Style) : (objectBox style).kind = .block := by
  simp [objectBox, kind_setKind]

theorem wfBox_objectBox (style : Style) : wfBox (objectBox style) = true := by
  unfold objectBox
  rw [wfBox_setKind]
  simp [children_box_create, wfKids]

theorem doneOk_rowBox (style : Style) (cells : List Box)
    (h : cells.all doneOk = true) : doneOk (rowBox style cells) = true := by
  unfold doneOk rowBox
  rw [wfBox_setChildren, kind_setChildren, kind_setKind]
  simp [wfKids_of_all_doneOk .tableRow cells (by simp) h]

theorem doneOk_cellBox (style : Style) (b : Box) (hwf : wfBox b = true)
    (h1 : ¬(b.kind = .inlineBox)) (h2 : ¬(b.kind = .br)) :
    doneOk (cellBox style [b]) = true := by
  unfold doneOk cellBox
  rw [wfBox_setChildren, kind_setChildren, kind_setKind]
  simp [wfKids, hwf, parentOk_of_done .tableCell b.kind (by simp) h1 h2]

theorem box_frameset_kind_elem (c : Content) (nm : String)
    (a : List (String × String)) (sy : Style) (cs : List Node) (st : Status)
    (style : Style) (s : BState) :
    (box_frameset c (.element nm a sy cs) st style s).1.kind = .table := by
  unfold box_frameset
  dsimp only
  split
  · rw [kind_setCol, kind_setKind]
  · rw [kind_setChildren, kind_setCol, kind_setKind]

mutual

/-- `box_frameset` always yields a recursively well-formed box. -/
theorem box_frameset_ok (c : Content) (n : Node) (st : Status) (style : Style)
    (s : BState) : wfBox (box_frameset c n st style s).1 = true := by
  unfold box_frameset
  split
  · dsimp only
    split
    · rw [wfBox_setCol, wfBox_setKind]
      simp [children_box_create, wfKids]
    · rw [wfBox_setChildren, kind_setCol, kind_setKind]
      exact wfKids_of_all_doneOk .table _ (by simp)
        (frameset_iter_ok c st style _ _ _ _ [] [] s rfl rfl)
  · exact wfBox_box_create _ _ _ _
termination_by (sizeOf n, 0)

/-- Every row the frameset iteration accumulates is a closed well-formed
table row. -/
theorem frameset_iter_ok (c : Content) (st : Status) (style : Style)
    (ns : List Node) (rowFuel colFuel cols : Nat) (cur acc : List Box)
    (s : BState) (hcur : cur.all doneOk = true)
    (hacc : acc.all doneOk = true) :
    (frameset_iter c st style ns rowFuel colFuel cols cur acc s).1.all doneOk
      = true := by
  cases ns with
  | nil =>
    unfold frameset_iter
    simp [List.all_append, hacc, doneOk_rowBox style cur hcur]
  | cons n rest =>
    unfold frameset_iter
    dsimp only
    split
    · split
      · simp [List.all_append, hacc, doneOk_rowBox style cur hcur]
      · exact frameset_iter_ok c st style (n :: rest) (rowFuel - 1) cols cols
          [] (acc ++ [rowBox style cur]) s rfl
          (by simp [List.all_append, hacc, doneOk_rowBox style cur hcur])
    · split
      · exact frameset_iter_ok c st style rest rowFuel colFuel cols cur acc s
          hcur hacc
      · split
        · rename_i hfn hname
          cases n with
          | element nm a sy cs =>
            exact frameset_iter_ok c st style rest rowFuel (colFuel - 1) cols
              _ acc _
              (by simp [List.all_append, hcur,
                doneOk_cellBox style _
                  (by rw [wfBox_setStyleClone]
                      exact box_frameset_ok c (.element nm a sy cs) st style s)
                  (by rw [kind_setStyleClone, box_frameset_kind_elem]; simp)
                  (by rw [kind_setStyleClone, box_frameset_kind_elem]; simp)])
              hacc
          | text t => simp [isFrameNode, Node.isElement] at hfn
          | other => simp [isFrameNode, Node.isElement] at hfn
        · exact frameset_iter_ok c st style rest rowFuel (colFuel - 1) cols
            _ acc _
            (by simp [List.all_append, hcur,
              doneOk_cellBox style _ (wfBox_objectBox style)
                (by rw [kind_objectBox]; simp) (by rw [kind_objectBox]; simp)])
            hacc
termination_by (sizeOf ns, rowFuel)

end

/-- Every special-element handler's result satisfies `boxResOk`. -/
theorem element_dispatch_resOk (c : Content) (name : String)
    (attrs : List (String × String)) (style : Style) (children : List Node)
    (st : Status) (s : BState) (r : BoxRes × Status × BState)
    (h : element_dispatch c name attrs style children st s = some r) :
    boxResOk r.1 := by
  unfold element_dispatch at h
  split at h
  all_goals
    first
    | (simp only [Option.some.injEq] at h
       subst h
       first
       | exact box_a_resOk _ _ _
       | exact box_body_resOk _ _ _
       | exact box_br_resOk _ _
       | exact box_button_resOk _ _ _ _
       | exact box_embed_resOk _ _ _ _ _
       | exact box_form_resOk _ _ _ _
       | exact box_iframe_resOk _ _ _ _ _
       | exact box_image_resOk _ _ _ _ _
       | exact box_input_resOk _ _ _ _ _
       | exact box_object_resOk _ _ _ _ _ _
       | exact box_select_resOk _ _ _ _ _
       | exact box_textarea_resOk _ _ _ _ _
       | (intro b hb
          simp only [Option.some.injEq] at hb
          subst hb
          refine ⟨box_frameset_ok _ _ _ _ _, ?_, ?_, fun hx => by simp at hx⟩
          · rw [box_frameset_kind_elem]
            simp
          · rw [box_frameset_kind_elem]
            intro hx
            simp at hx))
    | simp at h

theorem ctxOK_empty : ctxOK ⟨[], none⟩ = true := rfl

mutual

/-- Conversion of a single node preserves the construction-context
invariant. -/
theorem convert_ok (c : Content) (n : Node) (pstyle : Style) (ctx : Ctx)
    (st : Status) (s : BState) (h : ctxOK ctx = true) :
    ctxOK (convert_xml_to_box c n pstyle ctx st s).1 = true := by
  cases n with
  | element nm a sy cs =>
    unfold convert_xml_to_box
    exact element_ok c nm a sy cs ctx st s h
  | text t =>
    unfold convert_xml_to_box
    exact box_construct_text_ok pstyle st t ctx h
  | other =>
    unfold convert_xml_to_box
    exact h
termination_by (sizeOf n, 3)

/-- The element constructor preserves the construction-context
invariant. -/
theorem element_ok (c : Content) (name : String)
    (attrs : List (String × String)) (style : Style) (children : List Node)
    (ctx : Ctx) (st : Status) (s : BState) (h : ctxOK ctx = true) :
    ctxOK (box_construct_element c name attrs style children ctx st s).1
      = true := by
  unfold box_construct_element
  split
  · exact h
  · dsimp only
    split
    · rename_i res st' s' heq
      split
      · exact h
      · rename_i box heqb
        have hres := element_dispatch_resOk c name attrs style children _ _
          (res, st', s') heq box heqb
        exact place_ok c box res.convertChildren attrs style children _ _
          ctx st' s' h hres.1 hres.2.1 hres.2.2.1 hres.2.2.2
    · exact place_ok c _ true attrs style children _ _ ctx _ s h
        (wfBox_box_create _ _ _ _) (by simp [kind_box_create])
        (fun _ => children_box_create _ _ _ _)
        (fun _ => children_box_create _ _ _ _)
termination_by (sizeOf children, 2)

/-- The placement step preserves the construction-context invariant
whenever the handler result was well-formed. -/
theorem place_ok (c : Content) (box : Box) (cc : Bool)
    (attrs : List (String × String)) (style : Style) (children : List Node)
    (title id : Option String) (ctx : Ctx) (st : Status) (s : BState)
    (h : ctxOK ctx = true) (hwf : wfBox box = true)
    (hic : ¬(box.kind = .inlineContainer))
    (hinl : box.kind = .inlineBox → box.children = [])
    (hcc : cc = true → box.children = []) :
    ctxOK (element_place c box cc attrs style children title id ctx st s).1
      = true := by
  have hwf1 : wfBox (if box.kind = .inlineBox
      then box.setKind (box_map style.display) else box) = true := by
    by_cases h0 : box.kind = .inlineBox
    · rw [if_pos h0, wfBox_setKind, hinl h0]
      simp [wfKids]
    · rw [if_neg h0]
      exact hwf
  have hic1 : ¬((if box.kind = .inlineBox
      then box.setKind (box_map style.display) else box).kind
        = .inlineContainer) := by
    by_cases h0 : box.kind = .inlineBox
    · rw [if_pos h0, kind_setKind]
      exact box_map_ne_ic style.display
    · rw [if_neg h0]
      exact hic
  have hch1 : (if box.kind = .inlineBox
      then box.setKind (box_map style.display) else box).children
        = box.children := by
    by_cases h0 : box.kind = .inlineBox
    · rw [if_pos h0, children_setKind]
    · rw [if_neg h0]
  unfold element_place
  dsimp only
  generalize hb1 : (if box.kind = .inlineBox
      then box.setKind (box_map style.display) else box) = b1
  rw [hb1] at hwf1 hic1 hch1
  split
  · rename_i hout
    split
    · rename_i hil
      have hicok : icOk b1 = true := by
        unfold icOk
        rcases hil with hk | hk <;> simp [hk, hwf1]
      by_cases hcc2 : cc = true
      · rw [if_pos hcc2]
        exact list_ok c children style _ st s (ctxOK_addInline ctx b1 h hicok)
      · rw [if_neg hcc2]
        exact ctxOK_addInline ctx b1 h hicok
    · rename_i hni
      split
      · rename_i hib
        by_cases hcc2 : cc = true
        · rw [if_pos hcc2, if_pos hcc2]
          apply ctxOK_addInline ctx _ h
          unfold icOk
          rw [wfBox_setChildren, kind_setChildren, hib]
          rw [hch1, hcc hcc2]
          simp only [List.nil_append]
          simp [wfKids_finalize .inlineBlock _
            (list_ok c children style ⟨[], none⟩ st s ctxOK_empty) (by simp)]
        · rw [if_neg hcc2, if_neg hcc2]
          apply ctxOK_addInline ctx _ h
          unfold icOk
          rw [hib]
          simp [hwf1]
      · rename_i hnib
        have hni' : ¬(b1.kind = .inlineBox) ∧ ¬(b1.kind = .br) := by
          constructor <;> intro hk <;> exact hni (by simp [hk])
        have hcond : ¬(b1.kind = .inlineBox ∨ b1.kind = .inlineBlock) := by
          rintro (hk | hk)
          · exact hni'.1 hk
          · exact hnib hk
        rw [if_neg hcond]
        have hbody : ∀ b2 : Box, b2.kind = b1.kind → wfBox b2 = true →
            ctxOK (ctx.addInline (Box.mk
              (if style.float = .left then .floatLeft else .floatRight)
              [applySpans b2 attrs] none false none 0 false 1 1 st.href title id
              none none none [])) = true := by
          intro b2 hk2 hwf2
          apply ctxOK_addInline ctx _ h
          unfold icOk
          rw [wfBox_mk, Box.kind_mk]
          have hpok : parentOk
              (if style.float = .left then .floatLeft else .floatRight)
              (applySpans b2 attrs).kind = true := by
            rw [kind_applySpans, hk2]
            by_cases hf : style.float = .left
            · rw [if_pos hf]
              exact parentOk_of_done _ _ (by simp) hni'.1 hni'.2
            · rw [if_neg hf]
              exact parentOk_of_done _ _ (by simp) hni'.1 hni'.2
          have hkf : ¬((if style.float = .left
              then BoxKind.floatLeft else .floatRight) = .block) := by
            by_cases hf : style.float = .left
            · rw [if_pos hf]; simp
            · rw [if_neg hf]; simp
          simp only [wfKids, hpok, wfBox_applySpans, hwf2, wfKids, hkf]
          simp
        by_cases hcc2 : cc = true
        · rw [if_pos hcc2, if_pos hcc2]
          apply hbody
          · rw [kind_setChildren]
          · rw [wfBox_setChildren, hch1, hcc hcc2]
            simp only [List.nil_append]
            exact wfKids_finalize b1.kind _
              (list_ok c children style ⟨[], none⟩ st s ctxOK_empty) hic1
        · rw [if_neg hcc2, if_neg hcc2]
          exact hbody b1 rfl hwf1
  · rename_i hout
    have hno : ¬(b1.kind = .inlineBox) ∧ ¬(b1.kind = .br) := by
      constructor <;> intro hk <;> exact hout (by simp [hk])
    have hbody : ∀ b2 : Box, b2.kind = b1.kind → wfBox b2 = true →
        ctxOK (ctx.addBlock (applySpans b2 attrs)) = true := by
      intro b2 hk2 hwf2
      apply ctxOK_addBlock ctx _ h
      unfold doneOk
      rw [wfBox_applySpans, kind_applySpans, hk2]
      simp [hwf2, hno.1, hno.2]
    by_cases hcc2 : cc = true
    · rw [if_pos hcc2, if_pos hcc2]
      apply hbody
      · rw [kind_setChildren]
      · rw [wfBox_setChildren, hch1, hcc hcc2]
        simp only [List.nil_append]
        exact wfKids_finalize b1.kind _
          (list_ok c children style ⟨[], none⟩ st s ctxOK_empty) hic1
    · rw [if_neg hcc2, if_neg hcc2]
      exact hbody b1 rfl hwf1
termination_by (sizeOf children, 1)

/-- The child-conversion loop preserves the construction-context
invariant. -/
theorem list_ok (c : Content) (ns : List Node) (pstyle : Style) (ctx : Ctx)
    (st : Status) (s : BState) (h : ctxOK ctx = true) :
    ctxOK (convert_list c ns pstyle ctx st s).1 = true := by
  cases ns with
  | nil =>
    unfold convert_list
    exact h
  | cons n rest =>
    unfold convert_list
    dsimp only
    exact list_ok c rest pstyle _ st _ (convert_ok c n pstyle ctx st s h)
termination_by (sizeOf ns, 0)

end

/-- C1: for every box tree produced by a completed construction pass
(`xml_to_box`), checked against the `BOX_BLOCK` root that owns the
resulting forest, every box of kind Inline (`BOX_INLINE`) or LineBreak
(`BOX_BR`) has an InlineContainer (`BOX_INLINE_CONTAINER`) as its
immediate parent, and no InlineContainer box has a Block-kind child; the
property holds recursively over the whole tree (`wfKids`/`wfBox`). -/
theorem claim_C1_inline_container_invariant (c : Content) (n : Node) :
    wfKids .block (xml_to_box c n).1 = true := by
  unfold xml_to_box
  exact wfKids_finalize .block _
    (convert_ok c n baseStyle ⟨[], none⟩ {} {} ctxOK_empty) (by simp)

end NetSurf
